import Mathlib

/-!
# Library management system (`src/dishu.cpp`): a shallow embedding

The C++ program keeps its books on the free store and the catalog
(`Library::books`) is a `vector<Book*>`.  The embedding therefore keeps an
explicit object store next to the catalog:

* `Mem`      : the free store (one cell per `new`, emptied by `delete`) and the
               static counter `Book::totalBooks`;
* `BookPtr`  : a `Book*`, either `nullptr` or the address of a cell;
* `Library`  : the vector of pointers, in order;
* `Outcome`  : how a call ends: normal return, a thrown C++ exception, or
               undefined behaviour (use of a null or dangling pointer).

An `int` holds a book id, the counter, a menu choice or a book type; these are
compared for equality only (the counter is also stepped by one, with overflow
as undefined behaviour), so they are embedded in `Int` exactly.  Strings are
`String`, compared with `==` exactly as `std::string::operator==` does (all
characters, case-sensitive).

Further down:

* formatted output (`setw` under `left`), `Book::display`, `showAll` and the
  report line of `operator<<`;
* `double` as IEEE 754 binary64 with round to nearest, ties to even, and the
  class `Fine` on it;
* `main`: the seeding block and one pass of the menu loop as a function of the
  state, the choice read and the operands read.  Extraction from `cin` is taken
  as having succeeded: the pass receives the values read.
-/

namespace LibrarySystem

/-! ## Data model -/

/-- The three concrete classes derived from `Book` (lines 57-73). -/
inductive Category where
  | Novel
  | Science
  | History
deriving DecidableEq, Repr

/-- The data members of a `Book` object (lines 13-16) and its dynamic type. -/
structure Book where
  id : Int
  title : String
  author : String
  isIssued : Bool
  category : Category
deriving DecidableEq, Repr

/-- A value of type `Book*`. -/
inductive BookPtr where
  | null
  | addr (a : Nat)
deriving DecidableEq, Repr

/-- The exceptions the program throws, with their `what()` text. -/
inductive Exn where
  | invalid_argument (what : String)
  | runtime_error (what : String)
deriving DecidableEq, Repr

/-- How a call that may change a state of type `σ` and return an `α` ends.
`throws` carries the state at the moment the exception leaves the function;
`undefined` is C++ undefined behaviour, after which nothing is known. -/
inductive Outcome (σ α : Type) where
  | returns (a : α) (s : σ)
  | throws (e : Exn) (s : σ)
  | undefined
deriving DecidableEq, Repr

/-- The free store and the static member `Book::totalBooks` (line 19, 54).
Cell `a` holds the object created by the `a`-th `new`; it is `none` once the
object has been destroyed.  Addresses are never handed out twice, so a pointer
to a destroyed object stays invalid. -/
structure Mem where
  objs : List (Option Book)
  totalBooks : Int
deriving DecidableEq, Repr

/-- The only data member of `Library` (line 78). -/
structure Library where
  books : List BookPtr
deriving DecidableEq, Repr

/-- Largest value of a 32-bit `int`. -/
def INT_MAX : Int := 2147483647

/-- Smallest value of a 32-bit `int`. -/
def INT_MIN : Int := -2147483648

/-- The program state before `main` runs: nothing allocated, `totalBooks = 0`. -/
def Mem.init : Mem := { objs := [], totalBooks := 0 }

/-- The state `Library() = default` (line 81) builds: an empty vector. -/
def Library.empty : Library := { books := [] }

/-! ## Object store -/

/-- Reading through a pointer: `none` when the pointer is null or the object it
pointed to has been destroyed (undefined behaviour in C++). -/
def Mem.deref (m : Mem) : BookPtr → Option Book
  | .null => none
  | .addr a => m.objs[a]?.join

/-- Overwrite the object a pointer designates (used by the member functions that
assign to a data member). -/
def Mem.store (m : Mem) (p : BookPtr) (b : Book) : Mem :=
  match p with
  | .null => m
  | .addr a => { m with objs := m.objs.set a (some b) }

/-- The constructor `Book::Book` (lines 21-24) through one of the derived
constructors (lines 59, 65, 71): members initialised from the arguments,
`isIssued(false)`, then `++totalBooks`. -/
def Book.construct (c : Category) (i : Int) (t a : String) : Book :=
  { id := i, title := t, author := a, isIssued := false, category := c }

/-- The expression `new Novel(i, t, a)` (resp. `Science`, `History`): a fresh
cell, the constructor run in it, `++totalBooks`.  Signed overflow of the
counter is undefined behaviour. -/
def Mem.new (m : Mem) (c : Category) (i : Int) (t a : String) : Option (BookPtr × Mem) :=
  if m.totalBooks + 1 ≤ INT_MAX then
    some (.addr m.objs.length,
          { objs := m.objs ++ [some (Book.construct c i t a)],
            totalBooks := m.totalBooks + 1 })
  else none

/-- The expression `delete p`: nothing for a null pointer; otherwise the virtual
destructor `~Book` runs (`--totalBooks`, lines 26-28) and the cell is released.
Deleting a pointer whose object is already gone is undefined behaviour. -/
def Mem.delete (m : Mem) : BookPtr → Option Mem
  | .null => some m
  | .addr a =>
    match m.deref (.addr a) with
    | none => none
    | some _ =>
      if INT_MIN ≤ m.totalBooks - 1 then
        some { objs := m.objs.set a none, totalBooks := m.totalBooks - 1 }
      else none

/-! ## `Book` member functions -/

/-- The accessor `Book::getId` (line 30). -/
def Book.getId (b : Book) : Int := b.id

/-- The accessor `Book::getTitle` (line 31). -/
def Book.getTitle (b : Book) : String := b.title

/-- The member `Book::issueBook` (lines 42-46) on the object itself. -/
def Book.issueBook (b : Book) : Outcome Book Unit :=
  if b.isIssued then
    .throws (.runtime_error "Book already issued!") b
  else
    .returns () { b with isIssued := true }

/-- The member `Book::returnBook` (lines 48-52) on the object itself. -/
def Book.returnBook (b : Book) : Outcome Book Unit :=
  if !b.isIssued then
    .throws (.runtime_error "Book was not issued!") b
  else
    .returns () { b with isIssued := false }

/-- The call `p->issueBook()` on the store. -/
def Mem.issueBook (m : Mem) (p : BookPtr) : Outcome Mem Unit :=
  match m.deref p with
  | none => .undefined
  | some b =>
    match b.issueBook with
    | .returns _ b' => .returns () (m.store p b')
    | .throws e _ => .throws e m
    | .undefined => .undefined

/-- The call `p->returnBook()` on the store. -/
def Mem.returnBook (m : Mem) (p : BookPtr) : Outcome Mem Unit :=
  match m.deref p with
  | none => .undefined
  | some b =>
    match b.returnBook with
    | .returns _ b' => .returns () (m.store p b')
    | .throws e _ => .throws e m
    | .undefined => .undefined

/-! ## `Library` member functions -/

/-- The loop of `Library::search(int)` (lines 97-100) over the remaining
elements; `none` is undefined behaviour (`b->getId()` on an invalid pointer). -/
def searchLoop (m : Mem) (id : Int) : List BookPtr → Option BookPtr
  | [] => some .null
  | b :: rest =>
    match m.deref b with
    | none => none
    | some bk => if bk.getId = id then some b else searchLoop m id rest

/-- The member `Library::search(int)` (lines 96-101). -/
def Library.search (m : Mem) (lib : Library) (id : Int) : Option BookPtr :=
  searchLoop m id lib.books

/-- The loop of `Library::search(const string&)` (lines 104-107). -/
def searchTitleLoop (m : Mem) (title : String) : List BookPtr → Option BookPtr
  | [] => some .null
  | b :: rest =>
    match m.deref b with
    | none => none
    | some bk => if bk.getTitle = title then some b else searchTitleLoop m title rest

/-- The overload `Library::search(const string&)` (lines 103-108). -/
def Library.search_title (m : Mem) (lib : Library) (title : String) : Option BookPtr :=
  searchTitleLoop m title lib.books

/-- The member `Library::addBook` (lines 88-93).  The store is only read. -/
def Library.addBook (m : Mem) (lib : Library) (b : BookPtr) : Outcome Library Unit :=
  if b = .null then
    .throws (.invalid_argument "Null book") lib
  else
    match m.deref b with
    | none => .undefined
    | some bk =>
      match lib.search m bk.getId with
      | none => .undefined
      | some r =>
        if r ≠ .null then
          .throws (.runtime_error "Book ID already exists!") lib
        else
          .returns () { books := lib.books ++ [b] }

/-! ## `std::remove_if` and `Library::removeBook`

`std::remove_if` is modelled after its reference implementation: `find_if`
locates the first element to drop, then one pass move-assigns every element to
keep onto the position `result`.  Positions at and after the returned iterator
are never written, so they keep what they held before the call.  The predicate
is applied exactly once to every element; here it reads through the pointer. -/

/-- The algorithm `std::find_if(first, last, pred)` on positions `first ..
first + n` of `v` (so `last = first + n`): the first position whose element
satisfies `pred`, or `last`. -/
def find_if {α : Type} (pred : α → Option Bool) (v : List α) : Nat → Nat → Option Nat
  | 0, first => some first
  | n + 1, first =>
    match v[first]? with
    | none => none
    | some x =>
      match pred x with
      | none => none
      | some true => some first
      | some false => find_if pred v n (first + 1)

/-- The compaction loop of `std::remove_if`:
`for (; first != last; ++first) if (!pred(*first)) { *result = move(*first); ++result; }`
with `n = last - first` iterations left.  Returns the vector and `result`. -/
def remove_if_loop {α : Type} (pred : α → Option Bool) :
    Nat → List α → Nat → Nat → Option (List α × Nat)
  | 0, v, result, _ => some (v, result)
  | n + 1, v, result, first =>
    match v[first]? with
    | none => none
    | some x =>
      match pred x with
      | none => none
      | some true => remove_if_loop pred n v result (first + 1)
      | some false => remove_if_loop pred n (v.set result x) (result + 1) (first + 1)

/-- The algorithm `std::remove_if(v.begin(), v.end(), pred)`: the vector after
the call and the position of the returned iterator. -/
def remove_if {α : Type} (pred : α → Option Bool) (v : List α) : Option (List α × Nat) :=
  match find_if pred v v.length 0 with
  | none => none
  | some first =>
    if first = v.length then some (v, first)
    else remove_if_loop pred (v.length - (first + 1)) v first (first + 1)

/-- The lambda `[id](Book* b) { return b->getId() == id; }` (line 112). -/
def hasId (m : Mem) (id : Int) (b : BookPtr) : Option Bool :=
  match m.deref b with
  | none => none
  | some bk => some (decide (bk.getId = id))

/-- The member `Library::removeBook` (lines 110-119): `remove_if`, then
`delete *it` on the element the returned iterator designates, then
`erase(it, end())`. -/
def Library.removeBook (m : Mem) (lib : Library) (id : Int) : Outcome (Mem × Library) Bool :=
  match remove_if (hasId m id) lib.books with
  | none => .undefined
  | some (v, it) =>
    if it ≠ v.length then
      match v[it]? with
      | none => .undefined
      | some p =>
        match m.delete p with
        | none => .undefined
        | some m' => .returns true (m', { books := v.take it })
    else
      .returns false (m, { books := v })

/-- A run of `addBook` calls, one per pointer, stopping at the first call that
does not return normally. -/
def Library.addBooks (m : Mem) : Library → List BookPtr → Outcome Library Unit
  | lib, [] => .returns () lib
  | lib, p :: ps =>
    match lib.addBook m p with
    | .returns _ lib' => Library.addBooks m lib' ps
    | .throws e s => .throws e s
    | .undefined => .undefined

/-- Whether a call ended by throwing. -/
def Outcome.raised {σ α : Type} : Outcome σ α → Bool
  | .throws _ _ => true
  | _ => false

/-- The state a call leaves behind, when it has one. -/
def Outcome.state {σ α : Type} : Outcome σ α → Option σ
  | .returns _ s => some s
  | .throws _ s => some s
  | .undefined => none

/-! ## Reading the catalog -/

/-- The records the catalog holds, through its pointers, in order; `none` for a
null pointer or a pointer to a destroyed object. -/
def Library.records (m : Mem) (lib : Library) : List (Option Book) :=
  lib.books.map m.deref

/-- Every pointer in the catalog designates a live object. -/
def Library.AllLive (m : Mem) (lib : Library) : Prop :=
  ∀ p ∈ lib.books, (m.deref p).isSome = true

/-- The records two pointers designate do not share an id (true when one of
them designates no record). -/
def Mem.distinctId (m : Mem) (p q : BookPtr) : Bool :=
  match m.deref p, m.deref q with
  | some a, some b => decide (a.id ≠ b.id)
  | _, _ => true

/-- No two records held at different positions of the catalog share an id. -/
def Library.DistinctIds (m : Mem) (lib : Library) : Prop :=
  lib.books.Pairwise (fun p q => m.distinctId p q = true)

instance (m : Mem) (lib : Library) : Decidable (lib.AllLive m) := by
  unfold Library.AllLive; infer_instance

instance (m : Mem) (lib : Library) : Decidable (lib.DistinctIds m) := by
  unfold Library.DistinctIds; infer_instance

/-- The seeded state of `main` (lines 180-182) as a store: three live objects at
addresses 0, 1, 2. -/
def seedMem : Mem :=
  { objs := [some (Book.construct .Novel 101 "Pride_and_Prejudice" "Jane Austen"),
             some (Book.construct .Science 201 "Physics_Fundamentals" "H.C. Verma"),
             some (Book.construct .History 301 "World_History" "K. Roberts")],
    totalBooks := 3 }

/-- The seeded catalog of `main`: the three pointers in insertion order. -/
def seedLib : Library := { books := [.addr 0, .addr 1, .addr 2] }

/-! ## Sequences of calls -/

/-- One call made on the program state: the construction of a record with
`new`, or one of the member functions that change the catalog or a record. -/
inductive Call where
  | construct (c : Category) (i : Int) (t a : String)
  | addBook (p : BookPtr)
  | removeBook (id : Int)
  | issueBook (p : BookPtr)
  | returnBook (p : BookPtr)
deriving DecidableEq, Repr

/-- The state after one call, whether it returned or threw; `none` when the
call has undefined behaviour. -/
def step (s : Mem × Library) : Call → Option (Mem × Library)
  | .construct c i t a => (s.1.new c i t a).map (fun r => (r.2, s.2))
  | .addBook p => (s.2.addBook s.1 p).state.map (fun lib => (s.1, lib))
  | .removeBook id => (s.2.removeBook s.1 id).state
  | .issueBook p => (s.1.issueBook p).state.map (fun m => (m, s.2))
  | .returnBook p => (s.1.returnBook p).state.map (fun m => (m, s.2))

/-- The state after a sequence of calls made one after the other. -/
def run : Mem × Library → List Call → Option (Mem × Library)
  | s, [] => some s
  | s, c :: cs =>
    match step s c with
    | none => none
    | some s' => run s' cs

/-- Every pointer in the catalog is an address the store has handed out. -/
def Library.InRange (m : Mem) (lib : Library) : Prop :=
  ∀ p ∈ lib.books, ∃ a, p = .addr a ∧ a < m.objs.length

/-- Whether the record a pointer designates has the id (false for a pointer that
designates no record). -/
def Mem.idIs (m : Mem) (id : Int) (p : BookPtr) : Bool :=
  match m.deref p with
  | some b => decide (b.id = id)
  | none => false

/-! ## Formatted output

`cout << left << setw(w) << x` writes the text of `x` and then fills with
spaces up to `w` characters; a text longer than `w` is written whole.  A
`Char` of a `String` stands for one `char` of the `std::string`. -/

/-- The text written by `os << left << setw(w) << s`. -/
def setwLeft (w : Nat) (s : String) : String :=
  s ++ String.mk (List.replicate (w - s.length) ' ')

/-- The line `Book::display` writes to `cout` (lines 33-38), `endl` included. -/
def Book.display (b : Book) : String :=
  setwLeft 6 (toString b.id) ++ setwLeft 25 b.title ++ setwLeft 20 b.author
    ++ setwLeft 10 (if b.isIssued then "Issued" else "Available") ++ "\n"

/-- The text `operator<<(ostream&, const Book&)` writes (lines 165-170). -/
def Book.reportLine (b : Book) : String :=
  setwLeft 6 (toString b.getId) ++ setwLeft 25 b.getTitle ++ setwLeft 20 "Issued Book Saved"

/-- The loop `for (Book* b : books) b->display();` of `showAll` (line 126);
`none` is undefined behaviour (a call through an invalid pointer). -/
def displayAll (m : Mem) : List BookPtr → Option String
  | [] => some ""
  | p :: ps =>
    match m.deref p with
    | none => none
    | some b =>
      match displayAll m ps with
      | none => none
      | some rest => some (b.display ++ rest)

/-- The text `Library::showAll` writes to `cout` (lines 121-129). -/
def Library.showAll (m : Mem) (lib : Library) : Option String :=
  match displayAll m lib.books with
  | none => none
  | some body =>
    some ("\n=================== Library Books ===================\n"
      ++ setwLeft 6 "ID" ++ setwLeft 25 "Title" ++ setwLeft 20 "Author"
      ++ setwLeft 10 "Status" ++ "\n"
      ++ "-----------------------------------------------------\n"
      ++ body
      ++ "-----------------------------------------------------\n"
      ++ "Total Books (Static Count): " ++ toString m.totalBooks ++ "\n")

/-- The member `ReportGenerator<Book>::generateReport` (lines 154-159) on the
text of the file: `opens` says whether `ofstream fout(filename, ios::app)`
succeeds. -/
def generateReport (obj : Book) (filename : String) (opens : Bool) (file : String) :
    Outcome String Unit :=
  if !opens then
    .throws (.runtime_error ("Cannot open file: " ++ filename)) file
  else
    .returns () (file ++ obj.reportLine ++ "\n")

/-! ## `double` and `Fine`

A `double` is an IEEE 754 binary64 number and `+` rounds to nearest, ties to
even.  Every finite `double` is an integer multiple of `2^(-1074)`, so a finite
value is held as that integer: `finite n` is the number `n * 2^(-1074)`.  The
sum of two finite values is then an integer too, and rounding keeps its 53
leading binary digits.

A NaN keeps its sign bit and its 52-bit fraction field, as in the machine.
IEEE 754 leaves open which NaN an operation on NaN operands returns; the model
follows x86-64 (SSE2): the NaN of the first source operand of the instruction,
made quiet, and for an invalid operation the default NaN, whose sign bit is
set.  Which operand of `+` the compiler makes the first source operand is its
choice, hence `Double.addOn`. -/

/-- Counting the binary digits of `n` by halving; the first argument bounds the
number of halvings. -/
def bitLengthAux : Nat → Nat → Nat → Nat
  | 0, _, acc => acc
  | f + 1, n, acc => if n = 0 then acc else bitLengthAux f (n / 2) (acc + 1)

/-- Number of binary digits of `n`. -/
def bitLength (n : Nat) : Nat := bitLengthAux n n 0

/-- Rounding of a natural number to 53 significant binary digits, to nearest,
ties to even. -/
def roundNat53 (n : Nat) : Nat :=
  if bitLength n - 53 = 0 then n
  else if n % 2 ^ (bitLength n - 53) > 2 ^ (bitLength n - 53 - 1) ∨
      (n % 2 ^ (bitLength n - 53) = 2 ^ (bitLength n - 53 - 1) ∧
        n / 2 ^ (bitLength n - 53) % 2 = 1) then
    (n / 2 ^ (bitLength n - 53) + 1) * 2 ^ (bitLength n - 53)
  else
    n / 2 ^ (bitLength n - 53) * 2 ^ (bitLength n - 53)

/-- A value of type `double`.  `finite 0` is `+0.0`; `nan neg payload` is the
NaN with that sign bit and that fraction field (bit 51 is the quiet bit). -/
inductive Double where
  | finite (n : Int)
  | negZero
  | inf (neg : Bool)
  | nan (neg : Bool) (payload : Nat)
deriving DecidableEq, Repr

/-- The number `1.0` in units of `2^(-1074)`. -/
def Double.one : Nat := 2 ^ 1074

/-- The first magnitude, in units of `2^(-1074)`, that is too large for a finite
`double`: `2^1024`. -/
def Double.huge : Nat := 2 ^ 2098

/-- The number `k * 2^(e - 1074)`, for instance `dyadic 21 1073` is 10.5 and
`dyadic 1 1074` is 1.0. -/
def Double.dyadic (k e : Nat) : Double := .finite (Int.ofNat (k * 2 ^ e))

/-- Whether the value is one a `double` can hold: a finite magnitude below
`2^1024` whose binary digits after the 53rd are all zero, a NaN with a fraction
field that is not zero and fits 52 bits. -/
def Double.isDouble : Double → Bool
  | .finite n =>
    decide (n.natAbs % 2 ^ (bitLength n.natAbs - 53) = 0 ∧ n.natAbs < Double.huge)
  | .nan _ p => decide (0 < p ∧ p < 2 ^ 52)
  | _ => true

/-- Whether the value is a NaN. -/
def Double.isNaN : Double → Bool
  | .nan _ _ => true
  | _ => false

/-- The number a value stands for, in units of `2^(-1074)`, when it is finite
(both zeros stand for 0). -/
def Double.units : Double → Option Int
  | .finite n => some n
  | .negZero => some 0
  | _ => none

/-- The fraction field of a NaN with the quiet bit (bit 51) set. -/
def Double.quiet (p : Nat) : Nat := if p / 2 ^ 51 % 2 = 1 then p else p + 2 ^ 51

/-- The NaN an invalid operation returns on x86-64: sign bit set, quiet bit
only. -/
def Double.defaultNaN : Double := .nan true (2 ^ 51)

/-- The `double` nearest to the exact number `z * 2^(-1074)`. -/
def Double.round (z : Int) : Double :=
  if Double.huge ≤ roundNat53 z.natAbs then .inf (decide (z < 0))
  else if z < 0 then .finite (-(roundNat53 z.natAbs : Int))
  else .finite (roundNat53 z.natAbs)

/-- The addition instruction on `double` with `a` as its first source operand:
a NaN operand is returned quiet (the first one when both are NaN), opposite
infinities give the default NaN, and a finite sum is rounded. -/
def Double.add : Double → Double → Double
  | .nan s p, _ => .nan s (Double.quiet p)
  | _, .nan s p => .nan s (Double.quiet p)
  | .inf s, .inf t => if s = t then .inf s else Double.defaultNaN
  | .inf s, _ => .inf s
  | _, .inf t => .inf t
  | .negZero, .negZero => .negZero
  | .negZero, .finite b => .finite b
  | .finite a, .negZero => .finite a
  | .finite a, .finite b => Double.round (a + b)

/-- The quotient `a / b` rounded to the nearest natural number, ties to even. -/
def divRoundEven (a b : Nat) : Nat :=
  if 2 * (a % b) > b ∨ (2 * (a % b) = b ∧ a / b % 2 = 1) then a / b + 1 else a / b

/-- The text `cout << fixed << setprecision(2) << x` writes. -/
def Double.toFixed2 : Double → String
  | .nan neg _ => if neg then "-nan" else "nan"
  | .inf neg => if neg then "-inf" else "inf"
  | .negZero => "-0.00"
  | .finite n =>
    (if n < 0 then "-" else "")
      ++ toString (divRoundEven (n.natAbs * 100) Double.one / 100) ++ "."
      ++ toString (divRoundEven (n.natAbs * 100) Double.one % 100 / 10)
      ++ toString (divRoundEven (n.natAbs * 100) Double.one % 10)

/-- The class `Fine` (lines 135-147): one data member. -/
structure Fine where
  amount : Double
deriving DecidableEq, Repr

/-- The expression `a + b` on `double` as compiled: `fromLeft` says whether the
compiler made the left operand the first source operand of the instruction.
The two choices differ only when both operands are NaN. -/
def Double.addOn (fromLeft : Bool) (a b : Double) : Double :=
  if fromLeft then Double.add a b else Double.add b a

/-- The member `Fine::operator+` (lines 140-142). -/
def Fine.add (a f : Fine) : Fine := { amount := Double.add a.amount f.amount }

/-- The member `Fine::operator+` (lines 140-142) under either choice of the
compiler for the operand order of the addition; `Fine.addOn true` is
`Fine.add`. -/
def Fine.addOn (fromLeft : Bool) (a f : Fine) : Fine :=
  { amount := Double.addOn fromLeft a.amount f.amount }

/-! ### Rounding to nearest, ties to even, as a property

These two definitions say what IEEE 754 asks of the rounding of a magnitude `n`
(in units of `2^(-1074)`); they do not mention how `roundNat53` computes it. -/

/-- A magnitude with at most 53 significant binary digits. -/
def Rep53 (k : Nat) : Prop := ∃ m e : Nat, m < 2 ^ 53 ∧ k = m * 2 ^ e

/-- The magnitude `r` is `n` rounded to 53 significant binary digits, to
nearest, ties to even: `r` has at most 53 significant digits, no such
magnitude is nearer to `n`, and when another one is as near, `r` is the even
multiple of the gap between the two. -/
def IsNearestEven53 (n r : Nat) : Prop :=
  Rep53 r ∧
  (∀ d, Rep53 d → Nat.dist n r ≤ Nat.dist n d) ∧
  (∀ d, Rep53 d → d ≠ r → Nat.dist n d = Nat.dist n r → r / Nat.dist d r % 2 = 0)

/-- The text `Fine::display` writes to `cout` (lines 144-146). -/
def Fine.display (a : Fine) : String :=
  "Total Fine Amount: Rs " ++ a.amount.toFixed2 ++ "\n"

/-! ## `main`: seeding and the menu loop -/

/-- The state `main` works on: the store, its one `Library lib`, and the text
the program has appended to the file `issued_books.txt`. -/
structure Prog where
  mem : Mem
  lib : Library
  report : String
deriving DecidableEq, Repr

/-- The values a menu command reads from `cin` after the choice (each command
reads the ones it names), and whether the report file can be opened. -/
structure Operands where
  id : Int
  title : String
  author : String
  type : Int
  f1 : Double
  f2 : Double
  fileOpens : Bool
deriving DecidableEq, Repr

/-- The two states of the menu controller. -/
inductive Control where
  | Running
  | Terminated
deriving DecidableEq, Repr

/-- What one pass through the `do ... while` body leaves: the controller state,
the program state, and the text written to `cout` and to `cerr`. -/
structure StepResult where
  control : Control
  prog : Prog
  cout : String
  cerr : String
deriving DecidableEq, Repr

/-- The text `e.what()` returns. -/
def Exn.what : Exn → String
  | .invalid_argument w => w
  | .runtime_error w => w

/-- The statement `lib.addBook(new C(id, title, author))` (lines 180-182 and
215-219): the object is constructed first, then `addBook` runs and may throw.
The result is the state and the exception leaving the statement, if any. -/
def addNew (s : Prog) (c : Category) (id : Int) (title author : String) :
    Option (Prog × Option Exn) :=
  match s.mem.new c id title author with
  | none => none
  | some (p, m') =>
    match s.lib.addBook m' p with
    | .returns _ lib' => some ({ s with mem := m', lib := lib' }, none)
    | .throws e lib' => some ({ s with mem := m', lib := lib' }, some e)
    | .undefined => none

/-- The seeding block of `main` (lines 175-185): the three `addBook` calls inside
`try`, the first exception ending the block and being written to `cerr`.
The result is the state and the text on `cerr`. -/
def seed : Option (Prog × String) :=
  match addNew { mem := Mem.init, lib := Library.empty, report := "" }
      .Novel 101 "Pride_and_Prejudice" "Jane Austen" with
  | none => none
  | some (s1, some e) => some (s1, "Initialization error: " ++ e.what ++ "\n")
  | some (s1, none) =>
    match addNew s1 .Science 201 "Physics_Fundamentals" "H.C. Verma" with
    | none => none
    | some (s2, some e) => some (s2, "Initialization error: " ++ e.what ++ "\n")
    | some (s2, none) =>
      match addNew s2 .History 301 "World_History" "K. Roberts" with
      | none => none
      | some (s3, some e) => some (s3, "Initialization error: " ++ e.what ++ "\n")
      | some (s3, none) => some (s3, "")

/-- The menu text written before the choice is read (lines 189-200). -/
def menuText : String :=
  "\n=========== LIBRARY MANAGEMENT SYSTEM ===========\n"
    ++ "1. Display All Books\n"
    ++ "2. Add Book\n"
    ++ "3. Remove Book\n"
    ++ "4. Search Book by ID\n"
    ++ "5. Search Book by Title\n"
    ++ "6. Issue Book\n"
    ++ "7. Return Book\n"
    ++ "8. Save Issued Book Report\n"
    ++ "9. Fine Calculation (Operator Overload)\n"
    ++ "0. Exit\n"
    ++ "Enter your choice: "

/-- The inner `try` block of the menu loop (lines 203-277) for the choice read:
the state, the text written to `cout`, and the exception leaving the block, if
any.  `none` is undefined behaviour. -/
def menuBody (s : Prog) (choice : Int) (inp : Operands) :
    Option (Prog × String × Option Exn) :=
  if choice = 1 then
    match s.lib.showAll s.mem with
    | none => none
    | some text => some (s, text, none)
  else if choice = 2 then
    if inp.type = 1 then
      match addNew s .Novel inp.id inp.title inp.author with
      | none => none
      | some (s', e) =>
        some (s', "Enter Book ID: Enter Title: Enter Author: "
          ++ "Type (1.Novel 2.Science 3.History): ", e)
    else if inp.type = 2 then
      match addNew s .Science inp.id inp.title inp.author with
      | none => none
      | some (s', e) =>
        some (s', "Enter Book ID: Enter Title: Enter Author: "
          ++ "Type (1.Novel 2.Science 3.History): ", e)
    else if inp.type = 3 then
      match addNew s .History inp.id inp.title inp.author with
      | none => none
      | some (s', e) =>
        some (s', "Enter Book ID: Enter Title: Enter Author: "
          ++ "Type (1.Novel 2.Science 3.History): ", e)
    else
      some (s, "Enter Book ID: Enter Title: Enter Author: "
        ++ "Type (1.Novel 2.Science 3.History): " ++ "Invalid Type!\n", none)
  else if choice = 3 then
    match s.lib.removeBook s.mem inp.id with
    | .returns true (m', lib') =>
      some ({ s with mem := m', lib := lib' }, "Enter Book ID to remove: " ++ "Book removed.\n",
        none)
    | .returns false (m', lib') =>
      some ({ s with mem := m', lib := lib' },
        "Enter Book ID to remove: " ++ "Book not found.\n", none)
    | .throws e (m', lib') =>
      some ({ s with mem := m', lib := lib' }, "Enter Book ID to remove: ", some e)
    | .undefined => none
  else if choice = 4 then
    match s.lib.search s.mem inp.id with
    | none => none
    | some .null => some (s, "Enter Book ID to search: " ++ "Not found.\n", none)
    | some b =>
      match s.mem.deref b with
      | none => none
      | some bk => some (s, "Enter Book ID to search: " ++ bk.display, none)
  else if choice = 5 then
    match s.lib.search_title s.mem inp.title with
    | none => none
    | some .null => some (s, "Enter Title to search: " ++ "Not found.\n", none)
    | some b =>
      match s.mem.deref b with
      | none => none
      | some bk => some (s, "Enter Title to search: " ++ bk.display, none)
  else if choice = 6 then
    match s.lib.search s.mem inp.id with
    | none => none
    | some .null => some (s, "Enter Book ID to issue: " ++ "Book not found.\n", none)
    | some b =>
      match s.mem.issueBook b with
      | .returns _ m' =>
        some ({ s with mem := m' },
          "Enter Book ID to issue: " ++ "Book issued successfully!\n", none)
      | .throws e m' => some ({ s with mem := m' }, "Enter Book ID to issue: ", some e)
      | .undefined => none
  else if choice = 7 then
    match s.lib.search s.mem inp.id with
    | none => none
    | some .null => some (s, "Enter Book ID to return: " ++ "Book not found.\n", none)
    | some b =>
      match s.mem.returnBook b with
      | .returns _ m' =>
        some ({ s with mem := m' },
          "Enter Book ID to return: " ++ "Book returned successfully!\n", none)
      | .throws e m' => some ({ s with mem := m' }, "Enter Book ID to return: ", some e)
      | .undefined => none
  else if choice = 8 then
    match s.lib.search s.mem inp.id with
    | none => none
    | some .null => some (s, "Enter Book ID to save report: " ++ "Book not found.\n", none)
    | some b =>
      match s.mem.deref b with
      | none => none
      | some bk =>
        match generateReport bk "issued_books.txt" inp.fileOpens s.report with
        | .returns _ file =>
          some ({ s with report := file },
            "Enter Book ID to save report: " ++ "Book details saved to file.\n", none)
        | .throws e file =>
          some ({ s with report := file }, "Enter Book ID to save report: ", some e)
        | .undefined => none
  else if choice = 9 then
    some (s, "Enter fine1 and fine2 amounts: "
      ++ (Fine.add { amount := inp.f1 } { amount := inp.f2 }).display, none)
  else if choice = 0 then
    some (s, "Exiting system...\n", none)
  else
    some (s, "Invalid choice!\n", none)

/-- One pass through the `do ... while (choice != 0)` loop of `main` (lines
188-281): the menu is written, the choice and its operands are read, the `try`
block runs, an exception is caught and written to `cerr`, and the loop
condition decides whether the controller goes on. -/
def menuStep (s : Prog) (choice : Int) (inp : Operands) : Option StepResult :=
  match menuBody s choice inp with
  | none => none
  | some (s', out, exn) =>
    some { control := if choice ≠ 0 then .Running else .Terminated,
           prog := s',
           cout := menuText ++ out,
           cerr := match exn with
             | none => ""
             | some e => "Error: " ++ e.what ++ "\n" }

/-- The condition under which every menu command is defined: all held pointers
designate live records and the counter is strictly inside the range of `int`. -/
def Prog.Valid (s : Prog) : Prop :=
  s.lib.AllLive s.mem ∧ INT_MIN < s.mem.totalBooks ∧ s.mem.totalBooks < INT_MAX

instance (s : Prog) : Decidable s.Valid := by
  unfold Prog.Valid; infer_instance

/-- Operands used where a command reads none, or where their value does not
matter. -/
def Operands.blank : Operands :=
  { id := 0, title := "", author := "", type := 0,
    f1 := .finite 0, f2 := .finite 0, fileOpens := true }

/-- The state `main` is in after seeding. -/
def seedProg : Prog := { mem := seedMem, lib := seedLib, report := "" }

/-! ## Lemmas on the object store and on `search` -/

theorem deref_isSome_iff (m : Mem) (p : BookPtr) :
    (m.deref p).isSome = true ↔ ∃ b, m.deref p = some b := by
  cases h : m.deref p <;> simp

/-- When every element is live and none has the id, the scan ends with
`nullptr`. -/
theorem searchLoop_absent (m : Mem) (id : Int) (l : List BookPtr)
    (h : ∀ p ∈ l, ∃ b, m.deref p = some b ∧ b.id ≠ id) :
    searchLoop m id l = some .null := by
  induction l with
  | nil => rfl
  | cons p l ih =>
    obtain ⟨b, hb, hne⟩ := h p (List.mem_cons_self _ _)
    have ih' := ih (fun q hq => h q (List.mem_cons_of_mem _ hq))
    simp [searchLoop, hb, Book.getId, hne, ih']

/-- The scan stops at the first element that has the id. -/
theorem searchLoop_found (m : Mem) (id : Int) (pre : List BookPtr) (p : BookPtr)
    (suf : List BookPtr) (b : Book)
    (hpre : ∀ q ∈ pre, ∃ c, m.deref q = some c ∧ c.id ≠ id)
    (hp : m.deref p = some b) (hid : b.id = id) :
    searchLoop m id (pre ++ p :: suf) = some p := by
  induction pre with
  | nil => simp [searchLoop, hp, Book.getId, hid]
  | cons q pre ih =>
    obtain ⟨c, hc, hne⟩ := hpre q (List.mem_cons_self _ _)
    have ih' := ih (fun r hr => hpre r (List.mem_cons_of_mem _ hr))
    simp [searchLoop, hc, Book.getId, hne, ih']

/-- A scan over live elements that ends with `nullptr` met no element with the
id. -/
theorem searchLoop_null_absent (m : Mem) (id : Int) (l : List BookPtr)
    (h : searchLoop m id l = some .null) :
    ∀ p ∈ l, p ≠ .null → ∀ b, m.deref p = some b → b.id ≠ id := by
  induction l with
  | nil => intro p hp; cases hp
  | cons q l ih =>
    intro p hp hnn b hb
    simp only [searchLoop] at h
    cases hq : m.deref q with
    | none => simp [hq] at h
    | some c =>
      simp only [hq, Book.getId] at h
      by_cases hc : c.id = id
      · simp only [hc, if_true, Option.some.injEq] at h
        subst h
        simp [Mem.deref] at hq
      · simp only [hc, if_false] at h
        rcases List.mem_cons.mp hp with rfl | hp'
        · rw [hq] at hb
          cases hb
          exact hc
        · exact ih h p hp' hnn b hb

/-- A scan that ends with a non-null pointer ends with an element of the list
that is live and has the id. -/
theorem searchLoop_some_mem (m : Mem) (id : Int) (l : List BookPtr) (r : BookPtr)
    (h : searchLoop m id l = some r) (hr : r ≠ .null) :
    r ∈ l ∧ ∃ b, m.deref r = some b ∧ b.id = id := by
  induction l with
  | nil =>
    simp only [searchLoop, Option.some.injEq] at h
    exact absurd h.symm hr
  | cons q l ih =>
    simp only [searchLoop] at h
    cases hq : m.deref q with
    | none => simp [hq] at h
    | some c =>
      simp only [hq, Book.getId] at h
      by_cases hc : c.id = id
      · simp only [hc, if_true, Option.some.injEq] at h
        subst h
        exact ⟨List.mem_cons_self _ _, c, hq, hc⟩
      · simp only [hc, if_false] at h
        obtain ⟨hmem, hb⟩ := ih h
        exact ⟨List.mem_cons_of_mem _ hmem, hb⟩

/-- Over live elements the scan is defined. -/
theorem searchLoop_defined (m : Mem) (id : Int) (l : List BookPtr)
    (h : ∀ p ∈ l, (m.deref p).isSome = true) :
    ∃ r, searchLoop m id l = some r := by
  induction l with
  | nil => exact ⟨.null, rfl⟩
  | cons q l ih =>
    obtain ⟨c, hc⟩ := (deref_isSome_iff m q).mp (h q (List.mem_cons_self _ _))
    obtain ⟨r, hr⟩ := ih (fun p hp => h p (List.mem_cons_of_mem _ hp))
    by_cases hid : c.id = id
    · exact ⟨q, by simp [searchLoop, hc, Book.getId, hid]⟩
    · exact ⟨r, by simp [searchLoop, hc, Book.getId, hid, hr]⟩

/-! ## Lemmas on `addBook` -/

theorem distinctId_iff (m : Mem) (p q : BookPtr) :
    m.distinctId p q = true ↔
      ∀ a b, m.deref p = some a → m.deref q = some b → a.id ≠ b.id := by
  unfold Mem.distinctId
  cases hp : m.deref p <;> cases hq : m.deref q <;> simp

theorem deref_null (m : Mem) : m.deref .null = none := rfl

theorem ne_null_of_deref (m : Mem) (p : BookPtr) (b : Book) (h : m.deref p = some b) :
    p ≠ .null := by
  intro hp
  subst hp
  simp [Mem.deref] at h

theorem addBook_null (m : Mem) (lib : Library) :
    lib.addBook m .null = .throws (.invalid_argument "Null book") lib := by
  simp [Library.addBook]

theorem addBook_fresh (m : Mem) (lib : Library) (b : BookPtr) (bk : Book)
    (hb : m.deref b = some bk)
    (h : ∀ q ∈ lib.books, ∃ c, m.deref q = some c ∧ c.id ≠ bk.id) :
    lib.addBook m b = .returns () { books := lib.books ++ [b] } := by
  have hnn := ne_null_of_deref m b bk hb
  have hs := searchLoop_absent m bk.id lib.books h
  simp [Library.addBook, hnn, hb, Library.search, Book.getId, hs]

theorem addBook_duplicate (m : Mem) (lib : Library) (b : BookPtr) (bk : Book)
    (hb : m.deref b = some bk) (hlive : lib.AllLive m)
    (h : ∃ q ∈ lib.books, ∃ c, m.deref q = some c ∧ c.id = bk.id) :
    lib.addBook m b = .throws (.runtime_error "Book ID already exists!") lib := by
  have hnn := ne_null_of_deref m b bk hb
  obtain ⟨r, hr⟩ := searchLoop_defined m bk.id lib.books hlive
  have hrn : r ≠ .null := by
    intro hnull
    subst hnull
    obtain ⟨q, hq, c, hc, hid⟩ := h
    exact searchLoop_null_absent m bk.id lib.books hr q hq (ne_null_of_deref m q c hc) c hc hid
  simp [Library.addBook, hnn, hb, Library.search, Book.getId, hr, hrn]

/-- A run of `addBook` calls over live records whose ids differ from each other
and from those already held appends them all, in order. -/
theorem addBooks_append (m : Mem) (ps : List BookPtr) :
    ∀ lib : Library,
      (∀ p ∈ lib.books ++ ps, (m.deref p).isSome = true) →
      (lib.books ++ ps).Pairwise
        (fun p q => ∀ a b, m.deref p = some a → m.deref q = some b → a.id ≠ b.id) →
      lib.addBooks m ps = .returns () { books := lib.books ++ ps } := by
  induction ps with
  | nil => intro lib _ _; simp [Library.addBooks]
  | cons p ps ih =>
    intro lib hlive hd
    obtain ⟨bk, hbk⟩ := (deref_isSome_iff m p).mp (hlive p (by simp))
    have hfresh : ∀ q ∈ lib.books, ∃ c, m.deref q = some c ∧ c.id ≠ bk.id := by
      intro q hq
      obtain ⟨c, hc⟩ := (deref_isSome_iff m q).mp (hlive q (by simp [hq]))
      refine ⟨c, hc, ?_⟩
      have := (List.pairwise_append.mp hd).2.2 q hq p (List.mem_cons_self _ _)
      exact this c bk hc hbk
    have hadd := addBook_fresh m lib p bk hbk hfresh
    have hih := ih { books := lib.books ++ [p] }
      (by simpa [List.append_assoc] using hlive)
      (by simpa [List.append_assoc] using hd)
    simp only [Library.addBooks, hadd]
    simpa [List.append_assoc] using hih

/-! ## C1: adding records with distinct ids -/

/-- C1: for every run of `addBook` calls on the empty catalog with live records
of pairwise distinct ids, every call returns normally, the catalog is then
exactly the records in the order they were added, and `search` with the id of
any added record returns that record. -/
theorem C1_addBook_distinct_ids (m : Mem) (ps : List BookPtr)
    (hlive : ∀ p ∈ ps, (m.deref p).isSome = true)
    (hdist : ps.Pairwise (fun p q => m.distinctId p q = true)) :
    Library.empty.addBooks m ps = .returns () { books := ps } ∧
    ∀ p ∈ ps, ∀ b, m.deref p = some b →
      Library.search m { books := ps } b.id = some p := by
  have hdist' := hdist.imp (fun {p q} h => (distinctId_iff m p q).mp h)
  constructor
  · have := addBooks_append m ps Library.empty (by simpa [Library.empty] using hlive)
      (by simpa [Library.empty] using hdist')
    simpa [Library.empty] using this
  · intro p hp b hb
    obtain ⟨pre, suf, rfl⟩ := List.append_of_mem hp
    have hpw := List.pairwise_append.mp hdist'
    refine searchLoop_found m b.id pre p suf b ?_ hb rfl
    intro q hq
    obtain ⟨c, hc⟩ := (deref_isSome_iff m q).mp (hlive q (by simp [hq]))
    exact ⟨c, hc, hpw.2.2 q hq p (List.mem_cons_self _ _) c b hc hb⟩

/-- C1 at the three records `main` seeds (store `seedMem`, ids 101, 201, 301). -/
theorem C1_addBook_distinct_ids_witness :
    Library.empty.addBooks seedMem [.addr 0, .addr 1, .addr 2]
        = .returns () { books := [.addr 0, .addr 1, .addr 2] } ∧
    ∀ p ∈ [BookPtr.addr 0, .addr 1, .addr 2], ∀ b, seedMem.deref p = some b →
      Library.search seedMem { books := [.addr 0, .addr 1, .addr 2] } b.id = some p :=
  C1_addBook_distinct_ids seedMem [.addr 0, .addr 1, .addr 2] (by decide) (by decide)

/-! ## C2: when `addBook` raises -/

/-- C2: on a catalog of live records and a pointer that is null or live,
`addBook` is defined; it raises exactly when the pointer is null (then with
`invalid_argument`) or some held record has the id of the new one (then with
the duplicate-id `runtime_error`); a raising call leaves the catalog as it was,
and a returning call leaves the old sequence with the pointer appended. -/
theorem C2_addBook_raises_iff (m : Mem) (lib : Library) (b : BookPtr)
    (hlive : lib.AllLive m) (hb : b = .null ∨ (m.deref b).isSome = true) :
    lib.addBook m b ≠ .undefined ∧
    ((lib.addBook m b).raised = true ↔
      (b = .null ∨ ∃ bk, m.deref b = some bk ∧
        ∃ q ∈ lib.books, ∃ c, m.deref q = some c ∧ c.id = bk.id)) ∧
    (∀ e s, lib.addBook m b = .throws e s →
      s = lib ∧
      (b = .null → e = .invalid_argument "Null book") ∧
      (b ≠ .null → e = .runtime_error "Book ID already exists!")) ∧
    (∀ u s, lib.addBook m b = .returns u s → s = { books := lib.books ++ [b] }) := by
  rcases hb with rfl | hsome
  · rw [addBook_null]
    simp [Outcome.raised]
  · obtain ⟨bk, hbk⟩ := (deref_isSome_iff m b).mp hsome
    have hnn := ne_null_of_deref m b bk hbk
    by_cases hdup : ∃ q ∈ lib.books, ∃ c, m.deref q = some c ∧ c.id = bk.id
    · rw [addBook_duplicate m lib b bk hbk hlive hdup]
      simp [Outcome.raised, hnn, hbk, hdup]
    · have hfresh : ∀ q ∈ lib.books, ∃ c, m.deref q = some c ∧ c.id ≠ bk.id := by
        intro q hq
        obtain ⟨c, hc⟩ := (deref_isSome_iff m q).mp (hlive q hq)
        exact ⟨c, hc, fun hid => hdup ⟨q, hq, c, hc, hid⟩⟩
      rw [addBook_fresh m lib b bk hbk hfresh]
      simp only [ne_eq, reduceCtorEq, not_false_eq_true, Outcome.raised, Bool.false_eq_true,
        false_iff, not_or, hnn, true_and, IsEmpty.forall_iff, implies_true,
        Outcome.returns.injEq, and_imp, true_and]
      refine ⟨?_, ?_⟩
      · rintro ⟨bk', hbk', h⟩
        rw [hbk] at hbk'
        cases hbk'
        exact hdup h
      · intro _ s hs
        exact hs.symm

/-- C2 on the seeded catalog with a second pointer to the record 201, which the
catalog already holds: the call raises and the catalog is unchanged. -/
theorem C2_addBook_raises_iff_witness :
    seedLib.addBook seedMem (.addr 1) ≠ .undefined ∧
    ((seedLib.addBook seedMem (.addr 1)).raised = true ↔
      (BookPtr.addr 1 = .null ∨ ∃ bk, seedMem.deref (.addr 1) = some bk ∧
        ∃ q ∈ seedLib.books, ∃ c, seedMem.deref q = some c ∧ c.id = bk.id)) ∧
    (∀ e s, seedLib.addBook seedMem (.addr 1) = .throws e s →
      s = seedLib ∧
      (BookPtr.addr 1 = .null → e = .invalid_argument "Null book") ∧
      (BookPtr.addr 1 ≠ .null → e = .runtime_error "Book ID already exists!")) ∧
    (∀ u s, seedLib.addBook seedMem (.addr 1) = .returns u s →
      s = { books := seedLib.books ++ [.addr 1] }) :=
  C2_addBook_raises_iff seedMem seedLib (.addr 1) (by decide) (Or.inr (by decide))

/-! ## C8, C9: issuing and returning a record -/

/-- C8: `issueBook` raises exactly when the record is issued and otherwise sets
the flag; `returnBook` raises exactly when the record is not issued and
otherwise clears the flag; id, title and author (and the class) are never
changed, and a raising call leaves the whole record as it was. -/
theorem C8_issue_return_contract (b : Book) :
    (b.issueBook.raised = true ↔ b.isIssued = true) ∧
    (b.isIssued = true →
      b.issueBook = .throws (.runtime_error "Book already issued!") b) ∧
    (b.isIssued = false →
      b.issueBook = .returns () { b with isIssued := true }) ∧
    (b.returnBook.raised = true ↔ b.isIssued = false) ∧
    (b.isIssued = false →
      b.returnBook = .throws (.runtime_error "Book was not issued!") b) ∧
    (b.isIssued = true →
      b.returnBook = .returns () { b with isIssued := false }) ∧
    (∀ s, b.issueBook.state = some s ∨ b.returnBook.state = some s →
      s.id = b.id ∧ s.title = b.title ∧ s.author = b.author ∧ s.category = b.category) := by
  cases hi : b.isIssued <;>
    simp [Book.issueBook, Book.returnBook, Outcome.raised, Outcome.state, hi] <;>
    rintro s (rfl | rfl) <;> simp

/-- C9: on an available record `issueBook` then `returnBook` both return and
give back the record itself; a freshly constructed record is available, a
second `issueBook` on it raises, and `returnBook` as its first call raises. -/
theorem C9_issue_then_return (b : Book) (h : b.isIssued = false) :
    (∃ b1, b.issueBook = .returns () b1 ∧ b1.returnBook = .returns () b) ∧
    (∀ (c : Category) (i : Int) (t a : String),
      (Book.construct c i t a).isIssued = false ∧
      (∃ f1, (Book.construct c i t a).issueBook = .returns () f1 ∧
        f1.issueBook = .throws (.runtime_error "Book already issued!") f1) ∧
      (Book.construct c i t a).returnBook
        = .throws (.runtime_error "Book was not issued!") (Book.construct c i t a)) := by
  refine ⟨⟨{ b with isIssued := true }, ?_, ?_⟩, ?_⟩
  · simp [Book.issueBook, h]
  · cases b
    simp_all [Book.returnBook]
  · intro c i t a
    simp [Book.construct, Book.issueBook, Book.returnBook]

/-- C9 at the first seeded record. -/
theorem C9_issue_then_return_witness :
    (∃ b1, (Book.construct .Novel 101 "Pride_and_Prejudice" "Jane Austen").issueBook
        = .returns () b1 ∧
      b1.returnBook
        = .returns () (Book.construct .Novel 101 "Pride_and_Prejudice" "Jane Austen")) ∧
    (∀ (c : Category) (i : Int) (t a : String),
      (Book.construct c i t a).isIssued = false ∧
      (∃ f1, (Book.construct c i t a).issueBook = .returns () f1 ∧
        f1.issueBook = .throws (.runtime_error "Book already issued!") f1) ∧
      (Book.construct c i t a).returnBook
        = .throws (.runtime_error "Book was not issued!") (Book.construct c i t a)) :=
  C9_issue_then_return (Book.construct .Novel 101 "Pride_and_Prejudice" "Jane Austen") rfl

/-! ## C10: search by title -/

/-- The title scan over live elements: it is defined, its result is `nullptr`
exactly when no element has the title, and a non-null result is the first
element that has it. -/
theorem searchTitleLoop_spec (m : Mem) (t : String) (l : List BookPtr)
    (hlive : ∀ p ∈ l, (m.deref p).isSome = true) :
    ∃ r, searchTitleLoop m t l = some r ∧
      (r = .null ↔ ∀ p ∈ l, ∀ b, m.deref p = some b → b.title ≠ t) ∧
      (r ≠ .null → ∃ pre suf b, l = pre ++ r :: suf ∧ m.deref r = some b ∧ b.title = t ∧
        ∀ q ∈ pre, ∀ c, m.deref q = some c → c.title ≠ t) := by
  induction l with
  | nil => exact ⟨.null, rfl, by simp, by simp⟩
  | cons q l ih =>
    obtain ⟨c, hc⟩ := (deref_isSome_iff m q).mp (hlive q (List.mem_cons_self _ _))
    have hqn := ne_null_of_deref m q c hc
    by_cases ht : c.title = t
    · refine ⟨q, by simp [searchTitleLoop, hc, Book.getTitle, ht], ?_, ?_⟩
      · constructor
        · intro h; exact absurd h hqn
        · intro h; exact absurd ht (h q (List.mem_cons_self _ _) c hc)
      · intro _
        exact ⟨[], l, c, rfl, hc, ht, by simp⟩
    · obtain ⟨r, hr, hnull, hfirst⟩ := ih (fun p hp => hlive p (List.mem_cons_of_mem _ hp))
      refine ⟨r, by simp [searchTitleLoop, hc, Book.getTitle, ht, hr], ?_, ?_⟩
      · rw [hnull]
        constructor
        · intro h p hp b hb
          rcases List.mem_cons.mp hp with rfl | hp'
          · rw [hc] at hb; cases hb; exact ht
          · exact h p hp' b hb
        · intro h p hp
          exact h p (List.mem_cons_of_mem _ hp)
      · intro hrn
        obtain ⟨pre, suf, b, hl, hb, hbt, hpre⟩ := hfirst hrn
        refine ⟨q :: pre, suf, b, by simp [hl], hb, hbt, ?_⟩
        intro x hx d hd
        rcases List.mem_cons.mp hx with rfl | hx'
        · rw [hc] at hd; cases hd; exact ht
        · exact hpre x hx' d hd

/-- C10: on a catalog of live records `search(title)` is defined; it returns
`nullptr` exactly when no held record has a title equal to the argument, and
otherwise it returns the first record, in catalog order, whose title equals the
argument character for character. -/
theorem C10_search_by_title (m : Mem) (lib : Library) (t : String)
    (hlive : lib.AllLive m) :
    ∃ r, lib.search_title m t = some r ∧
      (r = .null ↔ ∀ p ∈ lib.books, ∀ b, m.deref p = some b → b.title ≠ t) ∧
      (r ≠ .null → ∃ pre suf b, lib.books = pre ++ r :: suf ∧
        m.deref r = some b ∧ b.title = t ∧
        ∀ q ∈ pre, ∀ c, m.deref q = some c → c.title ≠ t) :=
  searchTitleLoop_spec m t lib.books hlive

/-- C10 on the seeded catalog with the title in lower case, which no record
has: the comparison is case-sensitive. -/
theorem C10_search_by_title_witness :
    seedLib.search_title seedMem "World_History" = some (.addr 2) ∧
    seedLib.search_title seedMem "world_history" = some .null ∧
    ∃ r, seedLib.search_title seedMem "world_history" = some r ∧
      (r = .null ↔ ∀ p ∈ seedLib.books, ∀ b, seedMem.deref p = some b →
        b.title ≠ "world_history") ∧
      (r ≠ .null → ∃ pre suf b, seedLib.books = pre ++ r :: suf ∧
        seedMem.deref r = some b ∧ b.title = "world_history" ∧
        ∀ q ∈ pre, ∀ c, seedMem.deref q = some c → c.title ≠ "world_history") :=
  ⟨by decide, by decide, C10_search_by_title seedMem seedLib "world_history" (by decide)⟩

/-! ## What `std::remove_if` computes -/

theorem getElem?_append_cons_length {α : Type} (pre : List α) (x : α) (s : List α) :
    (pre ++ x :: s)[pre.length]? = some x := by
  rw [List.getElem?_append_right (Nat.le_refl _)]
  simp

/-- The scan of `find_if` passes over a block of elements the predicate
rejects. -/
theorem find_if_skip {α : Type} (pred : α → Option Bool) (rest : List α) (n : Nat) :
    ∀ (a pre : List α), (∀ y ∈ a, pred y = some false) →
      find_if pred (pre ++ (a ++ rest)) (a.length + n) pre.length
        = find_if pred (pre ++ (a ++ rest)) n (pre.length + a.length) := by
  intro a
  induction a with
  | nil => intro pre _; simp
  | cons y a ih =>
    intro pre h
    have hy : pred y = some false := h y (List.mem_cons_self _ _)
    have hlen : (y :: a).length + n = (a.length + n) + 1 := by simp; omega
    have hget : (pre ++ (y :: a ++ rest))[pre.length]? = some y :=
      getElem?_append_cons_length pre y (a ++ rest)
    rw [hlen, find_if, hget]
    simp only [hy]
    have := ih (pre ++ [y]) (fun z hz => h z (List.mem_cons_of_mem _ hz))
    simp only [List.append_assoc, List.singleton_append, List.length_append,
      List.length_singleton, List.cons_append, List.nil_append] at this ⊢
    rw [this]
    congr 1
    simp only [List.length_cons]
    omega

/-- When the predicate rejects every element, `find_if` returns `last`. -/
theorem find_if_none {α : Type} (pred : α → Option Bool) (v : List α)
    (h : ∀ y ∈ v, pred y = some false) :
    find_if pred v v.length 0 = some v.length := by
  have := find_if_skip pred [] 0 v [] h
  simpa [find_if] using this

/-- The first element the predicate accepts is where `find_if` stops. -/
theorem find_if_first {α : Type} (pred : α → Option Bool) (a : List α) (x : α)
    (s : List α) (h : ∀ y ∈ a, pred y = some false) (hx : pred x = some true) :
    find_if pred (a ++ x :: s) (a ++ x :: s).length 0 = some a.length := by
  have := find_if_skip pred (x :: s) (s.length + 1) a [] h
  simp only [List.nil_append, List.length_nil, Nat.zero_add] at this
  have hlen : (a ++ x :: s).length = a.length + (s.length + 1) := by simp
  rw [hlen, this, find_if, getElem?_append_cons_length]
  simp only [hx]

theorem take_succ_set_self {α : Type} (l : List α) (n : Nat) (a : α) (h : n < l.length) :
    (l.set n a).take (n + 1) = l.take n ++ [a] := by
  rw [List.take_succ, List.getElem?_set_self h]
  congr 1
  apply List.ext_getElem?
  intro i
  rw [List.getElem?_take, List.getElem?_take]
  split
  · rw [List.getElem?_set_ne (by omega)]
  · rfl

/-- The compaction loop: with `result` strictly behind `first`, the kept
elements of the remaining range are written from `result` on, and every
position from the returned `result` on keeps what it held. -/
theorem remove_if_loop_eq {α : Type} (pred : α → Option Bool) (f : α → Bool) :
    ∀ (suf pre : List α) (result : Nat),
      (∀ x ∈ suf, pred x = some (f x)) → result < pre.length →
      remove_if_loop pred suf.length (pre ++ suf) result pre.length
        = some (pre.take result ++ suf.filter (fun x => !f x)
                  ++ (pre ++ suf).drop (result + (suf.filter (fun x => !f x)).length),
                result + (suf.filter (fun x => !f x)).length) := by
  intro suf
  induction suf with
  | nil =>
    intro pre result _ _
    simp [remove_if_loop]
  | cons x s ih =>
    intro pre result h hr
    have hx : pred x = some (f x) := h x (List.mem_cons_self _ _)
    have hs : ∀ y ∈ s, pred y = some (f y) := fun y hy => h y (List.mem_cons_of_mem _ hy)
    simp only [List.length_cons, remove_if_loop, getElem?_append_cons_length, hx]
    cases hf : f x with
    | true =>
      have := ih (pre ++ [x]) result hs (by simp; omega)
      simp only [List.append_assoc, List.singleton_append, List.length_append,
        List.length_singleton] at this
      simp only [this, hf, List.filter_cons, Bool.not_true, Bool.false_eq_true, if_false]
      rw [List.take_append_of_le_length (Nat.le_of_lt hr)]
      simp only [List.append_assoc]
    | false =>
      have := ih (pre.set result x ++ [x]) (result + 1) hs (by simp; omega)
      simp only [List.append_assoc, List.singleton_append, List.length_append,
        List.length_singleton, List.length_set] at this
      rw [List.set_append_left _ _ hr]
      simp only [this, hf, List.filter_cons, Bool.not_false, if_true, List.length_cons]
      have h1 : (pre.set result x ++ [x]).take (result + 1) = pre.take result ++ [x] := by
        rw [List.take_append_of_le_length (by simp; omega), take_succ_set_self _ _ _ hr]
      have h2 : ∀ k, result < k →
          (pre.set result x ++ x :: s).drop k = (pre ++ x :: s).drop k := by
        intro k hk
        rw [← List.set_append_left _ _ hr, List.drop_set_of_lt _ _ hk]
      have hk : result + 1 + (List.filter (fun x => !f x) s).length
          = result + ((List.filter (fun x => !f x) s).length + 1) := by omega
      rw [h1, h2 _ (by omega), hk]
      simp only [List.append_assoc, List.singleton_append, List.cons_append, List.nil_append]

/-- Elements before the first one the predicate accepts, that element, and the
rest: every list either has no accepted element or splits this way. -/
theorem split_first_accepted {α : Type} (f : α → Bool) (v : List α) :
    (∀ y ∈ v, f y = false) ∨
    ∃ a x s, v = a ++ x :: s ∧ (∀ y ∈ a, f y = false) ∧ f x = true := by
  induction v with
  | nil => left; simp
  | cons y v ih =>
    cases hy : f y with
    | true => exact Or.inr ⟨[], y, v, rfl, by simp, hy⟩
    | false =>
      rcases ih with h | ⟨a, x, s, rfl, ha, hx⟩
      · left
        intro z hz
        rcases List.mem_cons.mp hz with rfl | hz'
        · exact hy
        · exact h z hz'
      · right
        refine ⟨y :: a, x, s, rfl, ?_, hx⟩
        intro z hz
        rcases List.mem_cons.mp hz with rfl | hz'
        · exact hy
        · exact ha z hz'

/-- What `std::remove_if` leaves: the kept elements in order at the front, the
returned iterator right after them, and from there on the elements that were at
those positions before the call. -/
theorem remove_if_eq {α : Type} (pred : α → Option Bool) (f : α → Bool) (v : List α)
    (h : ∀ x ∈ v, pred x = some (f x)) :
    remove_if pred v
      = some (v.filter (fun x => !f x) ++ v.drop (v.filter (fun x => !f x)).length,
              (v.filter (fun x => !f x)).length) := by
  rcases split_first_accepted f v with hnone | ⟨a, x, s, rfl, ha, hx⟩
  · have hp : ∀ y ∈ v, pred y = some false := fun y hy => by rw [h y hy, hnone y hy]
    have hfilter : v.filter (fun x => !f x) = v :=
      List.filter_eq_self.mpr (fun y hy => by simp [hnone y hy])
    simp [remove_if, find_if_none pred v hp, hfilter]
  · have hpa : ∀ y ∈ a, pred y = some false := fun y hy => by
      rw [h y (by simp [hy]), ha y hy]
    have hpx : pred x = some true := by rw [h x (by simp), hx]
    have hps : ∀ y ∈ s, pred y = some (f y) := fun y hy => h y (by simp [hy])
    have hfa : a.filter (fun x => !f x) = a :=
      List.filter_eq_self.mpr (fun y hy => by simp [ha y hy])
    have hloop := remove_if_loop_eq pred f s (a ++ [x]) a.length hps (by simp)
    simp only [List.append_assoc, List.singleton_append, List.length_append,
      List.length_singleton] at hloop
    have hne : a.length ≠ (a ++ x :: s).length := by simp
    have hlen : (a ++ x :: s).length - (a.length + 1) = s.length := by simp; omega
    simp only [remove_if, find_if_first pred a x s hpa hpx, hne, if_false, hlen, hloop]
    simp [List.filter_append, hfa, List.filter_cons, hx]

/-- The scan of `find_if` stops with undefined behaviour at the first element on
which the predicate is undefined, when it accepted nothing before. -/
theorem find_if_undefined {α : Type} (pred : α → Option Bool) (rest : List α) (n : Nat) :
    ∀ (a pre : List α), (∀ y ∈ a, pred y ≠ some true) → (∃ y ∈ a, pred y = none) →
      find_if pred (pre ++ (a ++ rest)) (a.length + n) pre.length = none := by
  intro a
  induction a with
  | nil => intro pre _ h; simp at h
  | cons y a ih =>
    intro pre hacc hund
    have hlen : (y :: a).length + n = (a.length + n) + 1 := by simp; omega
    have hget : (pre ++ (y :: a ++ rest))[pre.length]? = some y :=
      getElem?_append_cons_length pre y (a ++ rest)
    rw [hlen, find_if, hget]
    cases hy : pred y with
    | none => simp only [hy]
    | some b =>
      cases b with
      | true => exact absurd hy (hacc y (List.mem_cons_self _ _))
      | false =>
        have hund' : ∃ z ∈ a, pred z = none := by
          obtain ⟨z, hz, hzn⟩ := hund
          rcases List.mem_cons.mp hz with rfl | hz'
          · rw [hy] at hzn; cases hzn
          · exact ⟨z, hz', hzn⟩
        have := ih (pre ++ [y]) (fun z hz => hacc z (List.mem_cons_of_mem _ hz)) hund'
        simp only [List.append_assoc, List.singleton_append, List.length_append,
          List.length_singleton, List.cons_append, List.nil_append] at this ⊢
        simp only [hy, this]

/-- The compaction loop stops with undefined behaviour when the predicate is
undefined on an element of the remaining range. -/
theorem remove_if_loop_undefined {α : Type} (pred : α → Option Bool) :
    ∀ (suf pre : List α) (result : Nat),
      (∃ y ∈ suf, pred y = none) → result < pre.length →
      remove_if_loop pred suf.length (pre ++ suf) result pre.length = none := by
  intro suf
  induction suf with
  | nil => intro pre result h; simp at h
  | cons x s ih =>
    intro pre result hund hr
    simp only [List.length_cons, remove_if_loop, getElem?_append_cons_length]
    cases hx : pred x with
    | none => simp only
    | some b =>
      have hund' : ∃ z ∈ s, pred z = none := by
        obtain ⟨z, hz, hzn⟩ := hund
        rcases List.mem_cons.mp hz with rfl | hz'
        · rw [hx] at hzn; cases hzn
        · exact ⟨z, hz', hzn⟩
      cases b with
      | true =>
        have := ih (pre ++ [x]) result hund' (by simp; omega)
        simpa only [List.append_assoc, List.singleton_append, List.length_append,
          List.length_singleton] using this
      | false =>
        have := ih (pre.set result x ++ [x]) (result + 1) hund' (by simp; omega)
        rw [List.set_append_left _ _ hr]
        simpa only [List.append_assoc, List.singleton_append, List.length_append,
          List.length_singleton, List.length_set] using this

/-- The algorithm `remove_if` applies the predicate to every element: when the
predicate is undefined on one of them, so is the call. -/
theorem remove_if_undefined {α : Type} (pred : α → Option Bool) (v : List α)
    (h : ∃ y ∈ v, pred y = none) : remove_if pred v = none := by
  rcases split_first_accepted (fun y => decide (pred y = some true)) v with
    hnone | ⟨a, x, s, rfl, ha, hx⟩
  · have := find_if_undefined pred [] 0 v []
      (fun y hy => by simpa using hnone y hy) h
    simp only [List.append_nil, List.nil_append, Nat.add_zero, List.length_nil] at this
    simp [remove_if, this]
  · have hx' : pred x = some true := by simpa using hx
    have ha' : ∀ y ∈ a, pred y ≠ some true := fun y hy => by simpa using ha y hy
    by_cases hund : ∃ y ∈ a, pred y = none
    · have := find_if_undefined pred (x :: s) (s.length + 1) a [] ha' hund
      simp only [List.nil_append, List.length_nil] at this
      have hlen : (a ++ x :: s).length = a.length + (s.length + 1) := by simp
      simp [remove_if, hlen, this]
    · have hpa : ∀ y ∈ a, pred y = some false := by
        intro y hy
        cases hp : pred y with
        | none => exact absurd ⟨y, hy, hp⟩ hund
        | some b =>
          cases b with
          | true => exact absurd hp (ha' y hy)
          | false => rfl
      have hs : ∃ y ∈ s, pred y = none := by
        obtain ⟨z, hz, hzn⟩ := h
        rcases List.mem_append.mp hz with hza | hzs
        · exact absurd ⟨z, hza, hzn⟩ hund
        · rcases List.mem_cons.mp hzs with rfl | hzs'
          · rw [hx'] at hzn; cases hzn
          · exact ⟨z, hzs', hzn⟩
      have hloop := remove_if_loop_undefined pred s (a ++ [x]) a.length hs (by simp)
      simp only [List.append_assoc, List.singleton_append, List.length_append,
        List.length_singleton] at hloop
      have hne : a.length ≠ (a ++ x :: s).length := by simp
      have hlen : (a ++ x :: s).length - (a.length + 1) = s.length := by simp; omega
      simp only [remove_if, find_if_first pred a x s hpa hx', hne, if_false, hlen, hloop]

/-! ## What `removeBook` does -/

theorem hasId_of_live (m : Mem) (id : Int) (p : BookPtr) (h : (m.deref p).isSome = true) :
    hasId m id p = some (m.idIs id p) := by
  obtain ⟨b, hb⟩ := (deref_isSome_iff m p).mp h
  simp [hasId, Mem.idIs, hb, Book.getId]

theorem hasId_eq_none (m : Mem) (id : Int) (p : BookPtr) (h : (m.deref p).isSome ≠ true) :
    hasId m id p = none := by
  cases hd : m.deref p with
  | none => simp [hasId, hd]
  | some b => simp [hd] at h

/-- On a catalog of live records `removeBook(id)` keeps, in order, the pointers
whose record has another id; when that drops something it runs `delete` on the
pointer that stood at position `k` before the call, `k` being the number of
pointers kept. -/
theorem removeBook_eq (m : Mem) (lib : Library) (id : Int) (hlive : lib.AllLive m) :
    lib.removeBook m id =
      if (lib.books.filter (fun p => !m.idIs id p)).length ≠ lib.books.length then
        match lib.books[(lib.books.filter (fun p => !m.idIs id p)).length]? with
        | none => .undefined
        | some p =>
          match m.delete p with
          | none => .undefined
          | some m' => .returns true (m', { books := lib.books.filter (fun p => !m.idIs id p) })
      else .returns false (m, lib) := by
  have hrem := remove_if_eq (hasId m id) (m.idIs id) lib.books
    (fun p hp => hasId_of_live m id p (hlive p hp))
  have hle : (lib.books.filter (fun p => !m.idIs id p)).length ≤ lib.books.length :=
    List.length_filter_le _ _
  simp only [Library.removeBook, hrem]
  have hlen : (lib.books.filter (fun p => !m.idIs id p)
      ++ lib.books.drop (lib.books.filter (fun p => !m.idIs id p)).length).length
      = lib.books.length := by
    simp only [List.length_append, List.length_drop]
    omega
  rw [hlen]
  by_cases hk : (lib.books.filter (fun p => !m.idIs id p)).length = lib.books.length
  · have hkeep : lib.books.filter (fun p => !m.idIs id p) = lib.books :=
      List.Sublist.eq_of_length (List.filter_sublist _) hk
    simp [hk, hkeep]
  · simp only [ne_eq, hk, not_false_eq_true, if_true]
    rw [List.getElem?_append_right (Nat.le_refl _)]
    simp only [Nat.sub_self, List.getElem?_drop, Nat.add_zero, List.take_left']

/-- A catalog with a pointer that designates no record makes `removeBook`
undefined: the predicate reads through every pointer. -/
theorem removeBook_undefined (m : Mem) (lib : Library) (id : Int) (h : ¬ lib.AllLive m) :
    lib.removeBook m id = .undefined := by
  have : ∃ p ∈ lib.books, hasId m id p = none := by
    unfold Library.AllLive at h
    push_neg at h
    obtain ⟨p, hp, hdead⟩ := h
    exact ⟨p, hp, hasId_eq_none m id p hdead⟩
  simp [Library.removeBook, remove_if_undefined (hasId m id) lib.books this]

/-- When the record with the id is the last one of a catalog of live records,
`removeBook` runs `delete` on that record and keeps the others. -/
theorem removeBook_last (m : Mem) (lib : Library) (x : Int) (pre : List BookPtr)
    (p : BookPtr) (hb : lib.books = pre ++ [p]) (hlive : lib.AllLive m)
    (hpre : ∀ q ∈ pre, m.idIs x q = false) (hp : m.idIs x p = true) :
    lib.removeBook m x =
      match m.delete p with
      | none => .undefined
      | some m' => .returns true (m', { books := pre }) := by
  have hkeep : lib.books.filter (fun q => !m.idIs x q) = pre := by
    rw [hb, List.filter_append, List.filter_eq_self.mpr (fun q hq => by simp [hpre q hq])]
    simp [hp]
  rw [removeBook_eq m lib x hlive, hkeep]
  have hne : pre.length ≠ lib.books.length := by rw [hb]; simp
  have hget : lib.books[pre.length]? = some p := by
    rw [hb]; exact getElem?_append_cons_length pre p []
  simp only [ne_eq, hne, not_false_eq_true, if_true, hget]

/-! ## C3, C4, C5: `removeBook` on a record that is not the last one

`remove_if` leaves the kept pointers in front and returns the position right
after them; the pointer to the removed record is not there any more (it was
overwritten, or it stood further to the left), so `delete *it` destroys the
record that stood at that position: the last record of the catalog, which the
catalog keeps. -/

/-- C3 (code defect): on the seeded catalog 101, 201, 301, all live and with
distinct ids, `removeBook(201)` returns true and the catalog then holds the
pointers of 101 and 301 in order, but the record 301 it holds has been
destroyed: its id, title, author and flag are gone, not unchanged. -/
theorem C3_removeBook_kept_record_destroyed :
    seedLib.AllLive seedMem ∧ seedLib.DistinctIds seedMem ∧
    seedLib.records seedMem =
      [some (Book.construct .Novel 101 "Pride_and_Prejudice" "Jane Austen"),
       some (Book.construct .Science 201 "Physics_Fundamentals" "H.C. Verma"),
       some (Book.construct .History 301 "World_History" "K. Roberts")] ∧
    ∃ m' lib', seedLib.removeBook seedMem 201 = .returns true (m', lib') ∧
      lib'.books = [.addr 0, .addr 2] ∧
      lib'.records m' =
        [some (Book.construct .Novel 101 "Pride_and_Prejudice" "Jane Austen"), none] :=
  ⟨by decide, by decide, by decide,
    { objs := [some (Book.construct .Novel 101 "Pride_and_Prejudice" "Jane Austen"),
               some (Book.construct .Science 201 "Physics_Fundamentals" "H.C. Verma"),
               none],
      totalBooks := 2 },
    { books := [.addr 0, .addr 2] }, by decide, by decide, by decide⟩

/-- C4 (code defect): on the seeded catalog 101, 201, 301, `removeBook(201)`
runs the destructor of the record 301 (cell 2), not of the record 201 (cell 1):
afterwards 201 is still alive and no longer in the catalog, and 301 is destroyed
and still in the catalog. -/
theorem C4_removeBook_destroys_other_record :
    seedLib.removeBook seedMem 201 =
      .returns true
        ({ objs := [some (Book.construct .Novel 101 "Pride_and_Prejudice" "Jane Austen"),
                    some (Book.construct .Science 201 "Physics_Fundamentals" "H.C. Verma"),
                    none],
           totalBooks := 2 },
         { books := [.addr 0, .addr 2] }) ∧
    seedMem.deref (.addr 1)
      = some (Book.construct .Science 201 "Physics_Fundamentals" "H.C. Verma") ∧
    seedMem.deref (.addr 2)
      = some (Book.construct .History 301 "World_History" "K. Roberts") := by
  decide

/-- C5 (code defect): on the seeded catalog, after `removeBook(201)` the call
`search(201)` does not return `nullptr`: it reads the id of the destroyed record
301 that the catalog still holds, which is undefined behaviour. -/
theorem C5_search_after_removeBook_undefined :
    ∃ m' lib', seedLib.removeBook seedMem 201 = .returns true (m', lib') ∧
      lib'.search m' 201 = none ∧ lib'.search m' 201 ≠ some .null :=
  ⟨{ objs := [some (Book.construct .Novel 101 "Pride_and_Prejudice" "Jane Austen"),
              some (Book.construct .Science 201 "Physics_Fundamentals" "H.C. Verma"),
              none],
     totalBooks := 2 },
   { books := [.addr 0, .addr 2] }, by decide, by decide, by decide⟩

/-! ## C6: `removeBook` with an id no record has -/

/-- C6: on a catalog of live records none of which has the id, `removeBook`
returns false and leaves the catalog and the store as they were: the sequence
of pointers is the same, no record is destroyed and `totalBooks` is the same. -/
theorem C6_removeBook_absent_id (m : Mem) (lib : Library) (x : Int)
    (hlive : lib.AllLive m) (habs : ∀ p ∈ lib.books, m.idIs x p = false) :
    lib.removeBook m x = .returns false (m, lib) := by
  have hkeep : lib.books.filter (fun p => !m.idIs x p) = lib.books :=
    List.filter_eq_self.mpr (fun p hp => by simp [habs p hp])
  rw [removeBook_eq m lib x hlive, hkeep]
  simp

/-- C6 on the seeded catalog with the id 7. -/
theorem C6_removeBook_absent_id_witness :
    seedLib.removeBook seedMem 7 = .returns false (seedMem, seedLib) :=
  C6_removeBook_absent_id seedMem seedLib 7 (by decide) (by decide)

/-! ## C7: ids along a sequence of calls -/

theorem lt_length_of_deref (m : Mem) (a : Nat) (b : Book) (h : m.deref (.addr a) = some b) :
    a < m.objs.length := by
  by_contra hge
  have : m.objs[a]? = none := List.getElem?_eq_none (Nat.le_of_not_lt hge)
  simp [Mem.deref, this] at h

/-- Ids stay distinct when every record the new store shows through a held
pointer was there, with the same id, in the old store. -/
theorem distinctIds_of_ids_kept (m m' : Mem) (lib : Library)
    (h : ∀ q ∈ lib.books, ∀ c, m'.deref q = some c →
      ∃ c0, m.deref q = some c0 ∧ c0.id = c.id)
    (hd : lib.DistinctIds m) : lib.DistinctIds m' := by
  unfold Library.DistinctIds at *
  refine List.Pairwise.imp_of_mem ?_ hd
  intro p q hp hq hpq
  rw [distinctId_iff] at hpq ⊢
  intro a b ha hb
  obtain ⟨a0, ha0, hida⟩ := h p hp a ha
  obtain ⟨b0, hb0, hidb⟩ := h q hq b hb
  rw [← hida, ← hidb]
  exact hpq a0 b0 ha0 hb0

theorem deref_new (m m' : Mem) (c : Category) (i : Int) (t a : String) (p : BookPtr)
    (h : m.new c i t a = some (p, m')) :
    m'.objs.length = m.objs.length + 1 ∧
    ∀ n, n < m.objs.length → m'.deref (.addr n) = m.deref (.addr n) := by
  unfold Mem.new at h
  split at h
  · simp only [Option.some.injEq, Prod.mk.injEq] at h
    obtain ⟨_, rfl⟩ := h
    refine ⟨by simp, ?_⟩
    intro n hn
    simp [Mem.deref, List.getElem?_append_left hn]
  · cases h

theorem deref_delete (m m' : Mem) (p : BookPtr) (h : m.delete p = some m') :
    m'.objs.length = m.objs.length ∧
    ∀ q b, m'.deref q = some b → m.deref q = some b := by
  cases p with
  | null =>
    simp only [Mem.delete, Option.some.injEq] at h
    subst h
    exact ⟨rfl, fun _ _ hq => hq⟩
  | addr a =>
    simp only [Mem.delete] at h
    split at h
    · cases h
    · split at h
      · simp only [Option.some.injEq] at h
        subst h
        refine ⟨by simp, ?_⟩
        intro q b hq
        cases q with
        | null => simp [Mem.deref] at hq
        | addr n =>
          by_cases hn : a = n
          · subst hn
            simp [Mem.deref, List.getElem?_set] at hq
            split at hq <;> simp at hq
          · simpa [Mem.deref, List.getElem?_set_ne hn] using hq
      · cases h

theorem deref_store (m : Mem) (p : BookPtr) (b b' : Book)
    (hp : m.deref p = some b) (hid : b'.id = b.id) :
    (m.store p b').objs.length = m.objs.length ∧
    ∀ q c, (m.store p b').deref q = some c → ∃ c0, m.deref q = some c0 ∧ c0.id = c.id := by
  cases p with
  | null => simp [Mem.deref] at hp
  | addr a =>
    have ha := lt_length_of_deref m a b hp
    refine ⟨by simp [Mem.store], ?_⟩
    intro q c hq
    cases q with
    | null => simp [Mem.deref] at hq
    | addr n =>
      by_cases hn : a = n
      · subst hn
        simp only [Mem.store, Mem.deref, List.getElem?_set_self ha, Option.join,
          Option.some_bind, id_eq, Option.some.injEq] at hq
        subst hq
        exact ⟨b, hp, hid.symm⟩
      · refine ⟨c, ?_, rfl⟩
        simpa [Mem.store, Mem.deref, List.getElem?_set_ne hn] using hq

/-- The catalog after a defined `addBook`: unchanged, or extended by a live
record whose id the scan did not find. -/
theorem addBook_state (m : Mem) (lib lib' : Library) (p : BookPtr)
    (h : (lib.addBook m p).state = some lib') :
    lib' = lib ∨
    (lib'.books = lib.books ++ [p] ∧
      ∃ bk, m.deref p = some bk ∧ searchLoop m bk.id lib.books = some .null) := by
  unfold Library.addBook at h
  split at h
  · left
    simpa [Outcome.state] using h.symm
  · cases hp : m.deref p with
    | none => simp [hp, Outcome.state] at h
    | some bk =>
      simp only [hp, Library.search, Book.getId] at h
      cases hs : searchLoop m bk.id lib.books with
      | none => simp [hs, Outcome.state] at h
      | some r =>
        simp only [hs] at h
        by_cases hr : r = .null
        · right
          subst hr
          simp only [ne_eq, not_true_eq_false, if_false, Outcome.state,
            Option.some.injEq] at h
          subst h
          exact ⟨rfl, bk, rfl, hs⟩
        · left
          simpa [hr, Outcome.state] using h.symm

/-- The store after a defined `issueBook` or `returnBook` through a pointer:
unchanged, or the record overwritten by one with the same id. -/
theorem issue_return_state (m m' : Mem) (p : BookPtr)
    (h : (m.issueBook p).state = some m' ∨ (m.returnBook p).state = some m') :
    m' = m ∨ ∃ b b', m.deref p = some b ∧ b'.id = b.id ∧ m' = m.store p b' := by
  cases hp : m.deref p with
  | none => simp [Mem.issueBook, Mem.returnBook, hp, Outcome.state] at h
  | some b =>
    cases hi : b.isIssued <;>
      simp only [Mem.issueBook, Mem.returnBook, hp, Book.issueBook, Book.returnBook, hi,
        Outcome.state, Bool.false_eq_true, if_false, if_true, Bool.not_false, Bool.not_true,
        Option.some.injEq] at h
    · rcases h with h | h
      · exact Or.inr ⟨b, { b with isIssued := true }, rfl, rfl, h.symm⟩
      · exact Or.inl h.symm
    · rcases h with h | h
      · exact Or.inl h.symm
      · exact Or.inr ⟨b, { b with isIssued := false }, rfl, rfl, h.symm⟩

/-- One defined call keeps the ids of the held records distinct and the held
pointers within the store. -/
theorem step_keeps_distinct (s s' : Mem × Library) (c : Call) (h : step s c = some s')
    (hd : s.2.DistinctIds s.1) (hr : s.2.InRange s.1) :
    s'.2.DistinctIds s'.1 ∧ s'.2.InRange s'.1 := by
  obtain ⟨m, lib⟩ := s
  obtain ⟨m', lib'⟩ := s'
  simp only at hd hr ⊢
  cases c with
  | construct c i t a =>
    simp only [step, Option.map_eq_some', Prod.mk.injEq] at h
    obtain ⟨⟨p, m1⟩, hnew, rfl, rfl⟩ := h
    obtain ⟨hlen, hsame⟩ := deref_new m m1 c i t a p hnew
    constructor
    · refine distinctIds_of_ids_kept m m1 lib ?_ hd
      intro q hq b hb
      obtain ⟨n, rfl, hn⟩ := hr q hq
      exact ⟨b, by rw [← hsame n hn]; exact hb, rfl⟩
    · intro q hq
      obtain ⟨n, rfl, hn⟩ := hr q hq
      exact ⟨n, rfl, by simp only [hlen]; omega⟩
  | addBook p =>
    simp only [step, Option.map_eq_some', Prod.mk.injEq] at h
    obtain ⟨lib1, hst, rfl, rfl⟩ := h
    rcases addBook_state m lib lib1 p hst with rfl | ⟨hbooks, bk, hbk, hnull⟩
    · exact ⟨hd, hr⟩
    · constructor
      · unfold Library.DistinctIds at hd ⊢
        rw [hbooks, List.pairwise_append]
        refine ⟨hd, List.pairwise_singleton _ _, ?_⟩
        intro q hq r hrm
        rw [List.mem_singleton] at hrm
        subst hrm
        rw [distinctId_iff]
        intro a b ha hb
        rw [hbk] at hb
        cases hb
        exact searchLoop_null_absent m bk.id lib.books hnull q hq
          (ne_null_of_deref m q a ha) a ha
      · intro q hq
        rw [hbooks, List.mem_append, List.mem_singleton] at hq
        rcases hq with hq | rfl
        · exact hr q hq
        · cases q with
          | null => simp [Mem.deref] at hbk
          | addr n => exact ⟨n, rfl, lt_length_of_deref m n bk hbk⟩
  | removeBook id =>
    simp only [step] at h
    by_cases hlive : lib.AllLive m
    · rw [removeBook_eq m lib id hlive] at h
      split at h
      · split at h
        · simp [Outcome.state] at h
        · rename_i p hp
          cases hdel : m.delete p with
          | none => simp [hdel, Outcome.state] at h
          | some m1 =>
            simp only [hdel, Outcome.state, Option.some.injEq, Prod.mk.injEq] at h
            obtain ⟨rfl, rfl⟩ := h
            obtain ⟨hlen, hsub⟩ := deref_delete m m1 p hdel
            constructor
            · refine distinctIds_of_ids_kept m m1 _ ?_ ?_
              · intro q _ b hb
                exact ⟨b, hsub q b hb, rfl⟩
              · exact List.Pairwise.sublist (List.filter_sublist _) hd
            · intro q hq
              obtain ⟨n, rfl, hn⟩ := hr q (List.mem_of_mem_filter hq)
              exact ⟨n, rfl, by omega⟩
      · simp only [Outcome.state, Option.some.injEq, Prod.mk.injEq] at h
        obtain ⟨rfl, rfl⟩ := h
        exact ⟨hd, hr⟩
    · rw [removeBook_undefined m lib id hlive] at h
      simp [Outcome.state] at h
  | issueBook p =>
    simp only [step, Option.map_eq_some', Prod.mk.injEq] at h
    obtain ⟨m1, hst, rfl, rfl⟩ := h
    rcases issue_return_state m m1 p (Or.inl hst) with rfl | ⟨b, b', hb, hid, rfl⟩
    · exact ⟨hd, hr⟩
    · obtain ⟨hlen, hkept⟩ := deref_store m p b b' hb hid
      refine ⟨distinctIds_of_ids_kept m _ lib (fun q _ c hc => hkept q c hc) hd, ?_⟩
      intro q hq
      obtain ⟨n, rfl, hn⟩ := hr q hq
      exact ⟨n, rfl, by omega⟩
  | returnBook p =>
    simp only [step, Option.map_eq_some', Prod.mk.injEq] at h
    obtain ⟨m1, hst, rfl, rfl⟩ := h
    rcases issue_return_state m m1 p (Or.inr hst) with rfl | ⟨b, b', hb, hid, rfl⟩
    · exact ⟨hd, hr⟩
    · obtain ⟨hlen, hkept⟩ := deref_store m p b b' hb hid
      refine ⟨distinctIds_of_ids_kept m _ lib (fun q _ c hc => hkept q c hc) hd, ?_⟩
      intro q hq
      obtain ⟨n, rfl, hn⟩ := hr q hq
      exact ⟨n, rfl, by omega⟩

theorem run_keeps_distinct (cs : List Call) :
    ∀ s s' : Mem × Library, run s cs = some s' →
      s.2.DistinctIds s.1 → s.2.InRange s.1 →
      s'.2.DistinctIds s'.1 ∧ s'.2.InRange s'.1 := by
  induction cs with
  | nil =>
    intro s s' h hd hr
    simp only [run, Option.some.injEq] at h
    subst h
    exact ⟨hd, hr⟩
  | cons c cs ih =>
    intro s s' h hd hr
    simp only [run] at h
    cases hstep : step s c with
    | none => simp [hstep] at h
    | some s1 =>
      simp only [hstep] at h
      obtain ⟨hd1, hr1⟩ := step_keeps_distinct s s1 c hstep hd hr
      exact ih s1 s' h hd1 hr1

/-- Along a sequence of calls none of which has undefined behaviour, no two live
records held at different positions of the catalog share an id.  This says
nothing of a sequence that reads through a pointer whose record `removeBook`
destroyed: such a sequence has no state (`run` is `none`). -/
theorem run_defined_ids_distinct (m0 : Mem) (cs : List Call) (m : Mem) (lib : Library)
    (h : run (m0, Library.empty) cs = some (m, lib)) :
    lib.DistinctIds m := by
  have := run_keeps_distinct cs (m0, Library.empty) (m, lib) h
    (by simp [Library.DistinctIds, Library.empty])
    (by simp [Library.InRange, Library.empty])
  exact this.1

/-- C7 (code defect): from the empty catalog, adding 101, 201 and 301 and then
calling `removeBook(201)` leaves a catalog that holds the record 101 and the
destroyed record 301, whose id can no longer be read.  The check that keeps ids
unique, the scan `addBook` makes before it appends, then reads through that
pointer: the next `addBook` (of a new record 401) has undefined behaviour, and so
has the next `removeBook`, so no state with the claimed property is reached. -/
theorem C7_id_check_undefined_after_remove :
    (∃ m lib,
      run (Mem.init, Library.empty)
          [.construct .Novel 101 "Pride_and_Prejudice" "Jane Austen", .addBook (.addr 0),
           .construct .Science 201 "Physics_Fundamentals" "H.C. Verma", .addBook (.addr 1),
           .construct .History 301 "World_History" "K. Roberts", .addBook (.addr 2),
           .removeBook 201]
        = some (m, lib) ∧
      lib.books = [.addr 0, .addr 2] ∧
      lib.records m
        = [some (Book.construct .Novel 101 "Pride_and_Prejudice" "Jane Austen"), none] ∧
      ¬ lib.AllLive m) ∧
    run (Mem.init, Library.empty)
        [.construct .Novel 101 "Pride_and_Prejudice" "Jane Austen", .addBook (.addr 0),
         .construct .Science 201 "Physics_Fundamentals" "H.C. Verma", .addBook (.addr 1),
         .construct .History 301 "World_History" "K. Roberts", .addBook (.addr 2),
         .removeBook 201,
         .construct .Novel 401 "Emma" "Jane Austen", .addBook (.addr 3)]
      = none ∧
    run (Mem.init, Library.empty)
        [.construct .Novel 101 "Pride_and_Prejudice" "Jane Austen", .addBook (.addr 0),
         .construct .Science 201 "Physics_Fundamentals" "H.C. Verma", .addBook (.addr 1),
         .construct .History 301 "World_History" "K. Roberts", .addBook (.addr 2),
         .removeBook 201,
         .removeBook 101]
      = none :=
  ⟨⟨{ objs := [some (Book.construct .Novel 101 "Pride_and_Prejudice" "Jane Austen"),
               some (Book.construct .Science 201 "Physics_Fundamentals" "H.C. Verma"),
               none],
      totalBooks := 2 },
    { books := [.addr 0, .addr 2] }, by decide, by decide, by decide, by decide⟩,
   by decide, by decide⟩

/-! ## C13: the report line -/

/-- The text written under `left` and `setw(w)` has `w` characters, or all the
characters of the value when it has more. -/
theorem setwLeft_length (w : Nat) (s : String) : (setwLeft w s).length = max w s.length := by
  simp only [setwLeft, String.length_append, String.length_mk, List.length_replicate]
  omega

/-- C13 (as stated, refuted): the record with id 1234567 and the seeded title
`Pride_and_Prejudice` gives a report line of 52 characters in which the whole
id is written; nothing is truncated to the width 6. -/
theorem C13_report_line_counterexample :
    (Book.construct .Novel 1234567 "Pride_and_Prejudice" "Jane Austen").reportLine
        = "1234567Pride_and_Prejudice      Issued Book Saved   " ∧
    (Book.construct .Novel 1234567 "Pride_and_Prejudice" "Jane Austen").reportLine.length
        ≠ 51 := by
  decide

/-- C13 (amended): the report line is the id, the title and the marker text
`Issued Book Saved`, each written whole and then filled with spaces up to its
width (6, 25, 20); its length is the sum of the three field lengths, each the
larger of the width and the length of the value, and it is 51 exactly when the
text of the id has at most 6 characters and the title at most 25. -/
theorem C13_report_line_padded (b : Book) :
    b.reportLine
      = toString b.id ++ String.mk (List.replicate (6 - (toString b.id).length) ' ')
        ++ (b.title ++ String.mk (List.replicate (25 - b.title.length) ' '))
        ++ "Issued Book Saved   " ∧
    b.reportLine.length = max 6 (toString b.id).length + max 25 b.title.length + 20 ∧
    (b.reportLine.length = 51 ↔ (toString b.id).length ≤ 6 ∧ b.title.length ≤ 25) := by
  have hlen : b.reportLine.length
      = max 6 (toString b.id).length + max 25 b.title.length + 20 := by
    simp only [Book.reportLine, Book.getId, Book.getTitle, String.length_append,
      setwLeft_length]
    have : "Issued Book Saved".length = 17 := by decide
    rw [this]
    rfl
  refine ⟨?_, hlen, ?_⟩
  · have : setwLeft 20 "Issued Book Saved" = "Issued Book Saved   " := by decide
    simp only [Book.reportLine, Book.getId, Book.getTitle, this]
    rfl
  · rw [hlen]
    omega

/-- C13 (amended) at the first seeded record: 51 characters. -/
theorem C13_report_line_padded_witness :
    (Book.construct .Novel 101 "Pride_and_Prejudice" "Jane Austen").reportLine.length = 51 :=
  (C13_report_line_padded
    (Book.construct .Novel 101 "Pride_and_Prejudice" "Jane Austen")).2.2.mpr (by decide)

/-! ## Rounding to 53 binary digits -/

theorem bitLengthAux_spec :
    ∀ (f n acc : Nat), n < 2 ^ f →
      ∃ L, bitLengthAux f n acc = acc + L ∧ n < 2 ^ L ∧ (L = 0 ∨ 2 ^ (L - 1) ≤ n) := by
  intro f
  induction f with
  | zero =>
    intro n acc h
    exact ⟨0, by simp [bitLengthAux], h, Or.inl rfl⟩
  | succ f ih =>
    intro n acc h
    by_cases hn : n = 0
    · subst hn
      exact ⟨0, by simp [bitLengthAux], by simp, Or.inl rfl⟩
    · have hhalf : n / 2 < 2 ^ f := by
        rw [Nat.pow_succ] at h
        omega
      obtain ⟨L, hL, hlt, hge⟩ := ih (n / 2) (acc + 1) hhalf
      refine ⟨L + 1, ?_, ?_, Or.inr ?_⟩
      · simp only [bitLengthAux, hn, if_false, hL]
        omega
      · rw [Nat.pow_succ]
        omega
      · simp only [Nat.add_sub_cancel]
        rcases hge with h0 | hge
        · subst h0
          simp only [Nat.pow_zero]
          omega
        · have : 2 ^ L = 2 ^ (L - 1) * 2 := by
            rw [← Nat.pow_succ]
            congr 1
            have : L ≠ 0 := by
              intro h0
              subst h0
              simp at hlt
              omega
            omega
          omega

/-- The number of binary digits: `n` lies below `2^L` and, unless it is 0, at or
above `2^(L - 1)`. -/
theorem bitLength_spec (n : Nat) :
    n < 2 ^ bitLength n ∧ (bitLength n = 0 ∨ 2 ^ (bitLength n - 1) ≤ n) := by
  obtain ⟨L, hL, hlt, hge⟩ := bitLengthAux_spec n n 0 (Nat.lt_two_pow n)
  have : bitLength n = L := by simp [bitLength, hL]
  rw [this]
  exact ⟨hlt, hge⟩

theorem rep53_of_lt (n : Nat) (h : n < 2 ^ 53) : Rep53 n := ⟨n, 0, h, by simp⟩

theorem two_pow_succ_pred (s : Nat) (hs : 1 ≤ s) : 2 ^ s = 2 * 2 ^ (s - 1) := by
  have : s = (s - 1) + 1 := by omega
  rw [this, Nat.pow_succ, Nat.add_sub_cancel]
  omega

/-- From `2^52 * 2^s` on, no magnitude with at most 53 binary digits lies
strictly between two consecutive multiples of `2^s`. -/
theorem rep53_gap (q s d : Nat) (hq : 2 ^ 52 ≤ q) (hs : 1 ≤ s) (hd : Rep53 d) :
    d ≤ q * 2 ^ s ∨ (q + 1) * 2 ^ s ≤ d := by
  obtain ⟨m, e, hm, rfl⟩ := hd
  by_contra hcon
  push_neg at hcon
  obtain ⟨h1, h2⟩ := hcon
  by_cases he : s ≤ e
  · have hpow : 2 ^ e = 2 ^ (e - s) * 2 ^ s := by
      rw [← Nat.pow_add]
      congr 1
      omega
    rw [hpow, ← Nat.mul_assoc] at h1 h2
    have h1' := Nat.lt_of_mul_lt_mul_right h1
    have h2' := Nat.lt_of_mul_lt_mul_right h2
    omega
  · have hp1 : 2 ^ e ≤ 2 ^ (s - 1) := Nat.pow_le_pow_right (by norm_num) (by omega)
    have hp2 := two_pow_succ_pred s hs
    have hpos : 0 < 2 ^ (s - 1) := Nat.pow_pos (by norm_num)
    have ha : m * 2 ^ e ≤ m * 2 ^ (s - 1) := Nat.mul_le_mul_left _ hp1
    have hb : m * 2 ^ (s - 1) < 2 ^ 53 * 2 ^ (s - 1) := Nat.mul_lt_mul_of_pos_right hm hpos
    have hc : 2 ^ 53 * 2 ^ (s - 1) = 2 ^ 52 * 2 ^ s := by
      rw [hp2]
      ring
    have hd' : 2 ^ 52 * 2 ^ s ≤ q * 2 ^ s := Nat.mul_le_mul_right _ hq
    omega

/-- The value `roundNat53` computes is `n` rounded to 53 significant binary
digits, to nearest, ties to even. -/
theorem roundNat53_nearest (n : Nat) : IsNearestEven53 n (roundNat53 n) := by
  obtain ⟨hlt, hge⟩ := bitLength_spec n
  by_cases hs0 : bitLength n - 53 = 0
  · have hr : roundNat53 n = n := by simp [roundNat53, hs0]
    rw [hr]
    have hn : n < 2 ^ 53 :=
      Nat.lt_of_lt_of_le hlt (Nat.pow_le_pow_right (by norm_num) (by omega))
    refine ⟨rep53_of_lt n hn, ?_, ?_⟩
    · intro d _
      simp [Nat.dist]
    · intro d _ hne hd
      exfalso
      simp only [Nat.dist, Nat.sub_self, Nat.add_zero] at hd
      omega
  · obtain ⟨s, hs⟩ : ∃ s, bitLength n - 53 = s := ⟨_, rfl⟩
    have hs1 : 1 ≤ s := by omega
    have hL : bitLength n = s + 53 := by omega
    have hge' : 2 ^ (s + 52) ≤ n := by
      rcases hge with h0 | h
      · omega
      · rw [hL] at h
        simpa using h
    have hlt' : n < 2 ^ (s + 53) := by rw [hL] at hlt; exact hlt
    have hPpos : 0 < 2 ^ s := Nat.pow_pos (by norm_num)
    have hq_lo : 2 ^ 52 ≤ n / 2 ^ s := by
      rw [Nat.le_div_iff_mul_le hPpos, ← Nat.pow_add]
      rw [Nat.add_comm]
      exact hge'
    have hq_hi : n / 2 ^ s < 2 ^ 53 := by
      rw [Nat.div_lt_iff_lt_mul hPpos, ← Nat.pow_add]
      rw [Nat.add_comm]
      exact hlt'
    have hdecomp : n = n / 2 ^ s * 2 ^ s + n % 2 ^ s := (Nat.div_add_mod' n (2 ^ s)).symm
    have hrem : n % 2 ^ s < 2 ^ s := Nat.mod_lt _ hPpos
    have hhalf := two_pow_succ_pred s hs1
    have hgap := fun d hd => rep53_gap (n / 2 ^ s) s d hq_lo hs1 hd
    have hlo : Rep53 (n / 2 ^ s * 2 ^ s) := ⟨n / 2 ^ s, s, hq_hi, rfl⟩
    have hhi : Rep53 ((n / 2 ^ s + 1) * 2 ^ s) := by
      by_cases hq1 : n / 2 ^ s + 1 < 2 ^ 53
      · exact ⟨n / 2 ^ s + 1, s, hq1, rfl⟩
      · have : n / 2 ^ s + 1 = 2 ^ 53 := by omega
        refine ⟨2 ^ 52, s + 1, by norm_num, ?_⟩
        rw [this, Nat.pow_succ]
        ring
    have hdivlo : n / 2 ^ s * 2 ^ s / 2 ^ s = n / 2 ^ s := Nat.mul_div_cancel _ hPpos
    have hdivhi : (n / 2 ^ s + 1) * 2 ^ s / 2 ^ s = n / 2 ^ s + 1 := Nat.mul_div_cancel _ hPpos
    have hsucc : (n / 2 ^ s + 1) * 2 ^ s = n / 2 ^ s * 2 ^ s + 2 ^ s := Nat.succ_mul _ _
    unfold roundNat53
    rw [hs, if_neg (by omega)]
    -- name the quantities the comparison is about
    generalize n / 2 ^ s = q at *
    generalize n % 2 ^ s = r at *
    generalize 2 ^ (s - 1) = H at *
    generalize 2 ^ s = P at *
    generalize hloeq : q * P = lo at *
    split
    · rename_i hc
      refine ⟨hhi, ?_, ?_⟩
      · intro d hd
        have := hgap d hd
        simp only [Nat.dist]
        omega
      · intro d hd hne hdist
        have := hgap d hd
        simp only [Nat.dist] at hdist ⊢
        have hd_eq : d = lo := by omega
        have hrH : r = H := by omega
        have hodd : q % 2 = 1 := by omega
        subst hd_eq
        have : d - (d + P) + (d + P - d) = P := by omega
        rw [hsucc, this, ← hsucc, hdivhi]
        omega
    · rename_i hc
      refine ⟨hlo, ?_, ?_⟩
      · intro d hd
        have := hgap d hd
        simp only [Nat.dist]
        omega
      · intro d hd hne hdist
        have := hgap d hd
        simp only [Nat.dist] at hdist ⊢
        have hd_eq : d = lo + P := by omega
        have hrH : r = H := by omega
        have heven : q % 2 = 0 := by omega
        subst hd_eq
        have : lo + P - lo + (lo - (lo + P)) = P := by omega
        rw [this, hdivlo]
        exact heven

/-- A magnitude with at most 53 binary digits is its own rounding. -/
theorem nearest_of_rep53 (n r : Nat) (h : IsNearestEven53 n r) (hn : Rep53 n) : r = n := by
  have := h.2.1 n hn
  simp only [Nat.dist, Nat.sub_self, Nat.add_zero] at this
  omega

/-! ## C14, C15: adding fines -/

/-- What `Double.round` returns, in terms of the rounded magnitude. -/
theorem Double.round_spec (z : Int) :
    (Double.huge ≤ roundNat53 z.natAbs → Double.round z = .inf (decide (z < 0))) ∧
    (roundNat53 z.natAbs < Double.huge →
      Double.round z
        = .finite (if z < 0 then -(roundNat53 z.natAbs : Int) else (roundNat53 z.natAbs : Int))) := by
  constructor
  · intro h
    simp only [Double.round, h, if_true]
  · intro h
    simp only [Double.round, Nat.not_le.mpr h, if_false]
    split <;> rfl

/-- The magnitude of a finite value a `double` holds has at most 53 binary
digits. -/
theorem rep53_of_isDouble (n : Int) (h : Double.isDouble (.finite n) = true) :
    Rep53 n.natAbs ∧ n.natAbs < Double.huge := by
  simp only [Double.isDouble, decide_eq_true_eq] at h
  obtain ⟨hmod, hlt⟩ := h
  refine ⟨?_, hlt⟩
  obtain ⟨hlt2, hge⟩ := bitLength_spec n.natAbs
  by_cases hs0 : bitLength n.natAbs - 53 = 0
  · exact rep53_of_lt _
      (Nat.lt_of_lt_of_le hlt2 (Nat.pow_le_pow_right (by norm_num) (by omega)))
  · have hL : bitLength n.natAbs = (bitLength n.natAbs - 53) + 53 := by omega
    have hPpos : 0 < 2 ^ (bitLength n.natAbs - 53) := Nat.pow_pos (by norm_num)
    refine ⟨n.natAbs / 2 ^ (bitLength n.natAbs - 53), bitLength n.natAbs - 53, ?_, ?_⟩
    · rw [Nat.div_lt_iff_lt_mul hPpos, ← Nat.pow_add, Nat.add_comm, ← hL]
      exact hlt2
    · exact (Nat.div_mul_cancel (Nat.dvd_of_mod_eq_zero hmod)).symm

/-- Rounding leaves the magnitude of a value a `double` holds as it is. -/
theorem roundNat53_of_isDouble (n : Int) (h : Double.isDouble (.finite n) = true) :
    roundNat53 n.natAbs = n.natAbs :=
  nearest_of_rep53 _ _ (roundNat53_nearest _) (rep53_of_isDouble n h).1

/-- Addition of operands that are not NaN does not depend on their order. -/
theorem Double.add_comm_of_not_nan (a b : Double)
    (ha : a.isNaN = false) (hb : b.isNaN = false) : Double.add a b = Double.add b a := by
  cases a <;> cases b <;>
    simp only [Double.isNaN, Bool.true_eq_false, Bool.false_eq_true] at ha hb <;>
    simp only [Double.add, Int.add_comm]
  rename_i s t
  by_cases h : s = t
  · subst h; simp
  · have h' : ¬ t = s := fun e => h e.symm
    simp [h, h']

/-- For operands that are not NaN the operand order the compiler picks makes no
difference. -/
theorem Double.addOn_of_not_nan (k : Bool) (a b : Double)
    (ha : a.isNaN = false) (hb : b.isNaN = false) : Double.addOn k a b = Double.add a b := by
  cases k
  · simp only [Double.addOn, Bool.false_eq_true, if_false]
    exact Double.add_comm_of_not_nan b a hb ha
  · simp only [Double.addOn, if_true]

set_option exponentiation.threshold 4000 in
/-- The sum of two values that stand for the numbers `x` and `y`: the rounding of
`x + y`. -/
theorem Double.add_units (a b : Double) (x y : Int)
    (ha : a.isDouble = true) (hb : b.isDouble = true)
    (hx : a.units = some x) (hy : b.units = some y) :
    (Double.huge ≤ roundNat53 (x + y).natAbs →
      Double.add a b = .inf (decide (x + y < 0))) ∧
    (roundNat53 (x + y).natAbs < Double.huge →
      (Double.add a b).units
        = some (if x + y < 0 then -(roundNat53 (x + y).natAbs : Int)
            else (roundNat53 (x + y).natAbs : Int))) := by
  have hself : ∀ n : Int, Double.isDouble (.finite n) = true →
      (if n < 0 then -(roundNat53 n.natAbs : Int) else (roundNat53 n.natAbs : Int)) = n ∧
      roundNat53 n.natAbs < Double.huge := by
    intro n hn
    rw [roundNat53_of_isDouble n hn]
    refine ⟨?_, (rep53_of_isDouble n hn).2⟩
    split <;> omega
  have hzero : roundNat53 0 = 0 := by decide
  have hhuge : 0 < Double.huge := by
    unfold Double.huge
    exact Nat.two_pow_pos _
  cases a with
  | finite m =>
    cases b with
    | finite k =>
      simp only [Double.units, Option.some.injEq] at hx hy
      subst hx; subst hy
      obtain ⟨h1, h2⟩ := Double.round_spec (m + k)
      refine ⟨fun h => by simp only [Double.add, h1 h], fun h => ?_⟩
      simp only [Double.add, h2 h, Double.units]
    | negZero =>
      simp only [Double.units, Option.some.injEq] at hx hy
      subst hx; subst hy
      obtain ⟨h1, h2⟩ := hself m ha
      simp only [Int.add_zero, Double.add, Double.units]
      exact ⟨fun h => absurd h2 (Nat.not_lt.mpr h), fun _ => by rw [h1]⟩
    | inf s => simp [Double.units] at hy
    | nan s p => simp [Double.units] at hy
  | negZero =>
    cases b with
    | finite k =>
      simp only [Double.units, Option.some.injEq] at hx hy
      subst hx; subst hy
      obtain ⟨h1, h2⟩ := hself k hb
      simp only [Int.zero_add, Double.add, Double.units]
      exact ⟨fun h => absurd h2 (Nat.not_lt.mpr h), fun _ => by rw [h1]⟩
    | negZero =>
      simp only [Double.units, Option.some.injEq] at hx hy
      subst hx; subst hy
      simp only [Int.add_zero, Int.natAbs_zero, hzero, Double.add, Double.units]
      exact ⟨fun h => by omega, fun _ => by simp⟩
    | inf s => simp [Double.units] at hy
    | nan s p => simp [Double.units] at hy
  | inf s => simp [Double.units] at hx
  | nan s p => simp [Double.units] at hx

set_option maxRecDepth 100000 in
set_option exponentiation.threshold 4000 in
/-- C14 (as stated, refuted): with the two quiet NaNs of opposite sign as
amounts, `Fine(a) + Fine(b)` and `Fine(b) + Fine(a)` hold different amounts and
are displayed differently (`nan` and `-nan`), whichever operand order the
compiler picks; and with the amounts 9007199254740992 (`2^53`) and 1 the sum
holds `2^53`, not the numeric sum `2^53 + 1`. -/
theorem C14_fine_add_counterexample :
    Double.isDouble (.nan false (2 ^ 51)) = true ∧
    Double.isDouble (.nan true (2 ^ 51)) = true ∧
    (Fine.addOn true { amount := .nan false (2 ^ 51) } { amount := .nan true (2 ^ 51) }).amount
      ≠ (Fine.addOn true { amount := .nan true (2 ^ 51) }
          { amount := .nan false (2 ^ 51) }).amount ∧
    (Fine.addOn false { amount := .nan false (2 ^ 51) } { amount := .nan true (2 ^ 51) }).amount
      ≠ (Fine.addOn false { amount := .nan true (2 ^ 51) }
          { amount := .nan false (2 ^ 51) }).amount ∧
    (Fine.addOn true { amount := .nan false (2 ^ 51) } { amount := .nan true (2 ^ 51) }).display
      ≠ (Fine.addOn true { amount := .nan true (2 ^ 51) }
          { amount := .nan false (2 ^ 51) }).display ∧
    (Fine.addOn false { amount := .nan false (2 ^ 51) } { amount := .nan true (2 ^ 51) }).display
      ≠ (Fine.addOn false { amount := .nan true (2 ^ 51) }
          { amount := .nan false (2 ^ 51) }).display ∧
    Double.isDouble (Double.dyadic 1 1127) = true ∧
    Double.isDouble (Double.dyadic 1 1074) = true ∧
    (Fine.addOn true { amount := Double.dyadic 1 1127 } { amount := Double.dyadic 1 1074 }).amount
      = Double.dyadic 1 1127 ∧
    (Fine.addOn false { amount := Double.dyadic 1 1127 } { amount := Double.dyadic 1 1074 }).amount
      = Double.dyadic 1 1127 ∧
    Double.dyadic 1 1127 ≠ .finite (Int.ofNat (2 ^ 1127) + Int.ofNat (2 ^ 1074)) := by
  refine ⟨by decide, by decide, by decide, by decide, by decide, by decide, by decide,
    by decide, by decide, by decide, by decide⟩

/-- C14 (amended): for amounts that are not NaN, `Fine(a) + Fine(b)` holds the
same amount as `Fine(b) + Fine(a)`, whichever operand order the compiler
picks.  When the amounts are finite, standing for the numbers `x` and `y`, that
amount is `x + y` rounded once to 53 significant binary digits, to nearest, ties
to even: an infinity of the sign of `x + y` when the rounded magnitude reaches
`2^1024`, the rounded number otherwise, and so `x + y` itself whenever a
`double` can hold it.  With an infinite amount the sum is that infinity, except
that two opposite infinities give a NaN. -/
theorem C14_fine_add_commutative_non_nan (k : Bool) (a b : Fine)
    (ha : a.amount.isDouble = true) (hb : b.amount.isDouble = true)
    (hna : a.amount.isNaN = false) (hnb : b.amount.isNaN = false) :
    (Fine.addOn k a b).amount = (Fine.addOn k b a).amount ∧
    (∀ x y : Int, a.amount.units = some x → b.amount.units = some y →
      ∃ r : Nat, IsNearestEven53 (x + y).natAbs r ∧
        (Double.huge ≤ r → (Fine.addOn k a b).amount = .inf (decide (x + y < 0))) ∧
        (r < Double.huge →
          (Fine.addOn k a b).amount.units = some (if x + y < 0 then -(r : Int) else (r : Int))) ∧
        (Rep53 (x + y).natAbs → (x + y).natAbs < Double.huge →
          (Fine.addOn k a b).amount.units = some (x + y))) ∧
    (∀ s : Bool, a.amount = .inf s → b.amount ≠ .inf (!s) →
      (Fine.addOn k a b).amount = .inf s) ∧
    (∀ s : Bool, a.amount = .inf s → b.amount = .inf (!s) →
      (Fine.addOn k a b).amount.isNaN = true) := by
  have hab : (Fine.addOn k a b).amount = Double.add a.amount b.amount :=
    Double.addOn_of_not_nan k _ _ hna hnb
  have hba : (Fine.addOn k b a).amount = Double.add b.amount a.amount :=
    Double.addOn_of_not_nan k _ _ hnb hna
  refine ⟨?_, ?_, ?_, ?_⟩
  · rw [hab, hba]
    exact Double.add_comm_of_not_nan _ _ hna hnb
  · intro x y hx hy
    obtain ⟨h1, h2⟩ := Double.add_units a.amount b.amount x y ha hb hx hy
    have hnear := roundNat53_nearest (x + y).natAbs
    refine ⟨roundNat53 (x + y).natAbs, hnear, ?_, ?_, ?_⟩
    · intro h
      rw [hab]
      exact h1 h
    · intro h
      rw [hab]
      exact h2 h
    · intro hrep hlt
      have hr := nearest_of_rep53 _ _ hnear hrep
      rw [hab, h2 (by rw [hr]; exact hlt), hr]
      congr 1
      split <;> omega
  · intro s has hbs
    rw [hab, has]
    cases hbv : b.amount with
    | finite n => simp only [Double.add]
    | negZero => simp only [Double.add]
    | inf t =>
      have hts : s = t := by
        rw [hbv] at hbs
        cases s <;> cases t <;> simp_all
      subst hts
      simp [Double.add]
    | nan t p => rw [hbv] at hnb; simp [Double.isNaN] at hnb
  · intro s has hbs
    rw [hab, has, hbs]
    cases s <;> simp [Double.add, Double.defaultNaN, Double.isNaN]

set_option maxRecDepth 100000 in
set_option exponentiation.threshold 4000 in
/-- C14 (amended) at the amounts 10.50 (`21 * 2^(-1)`) and 5.25 (`21 * 2^(-2)`):
both orders hold 15.75 (`63 * 2^(-2)`), the exact sum, which `Fine::display`
writes as `Rs 15.75`. -/
theorem C14_fine_add_commutative_non_nan_witness :
    (Fine.addOn true { amount := Double.dyadic 21 1073 }
        { amount := Double.dyadic 21 1072 }).amount
      = (Fine.addOn true { amount := Double.dyadic 21 1072 }
          { amount := Double.dyadic 21 1073 }).amount ∧
    (Fine.addOn true { amount := Double.dyadic 21 1073 }
        { amount := Double.dyadic 21 1072 }).amount.units
      = some (Int.ofNat (21 * 2 ^ 1073) + Int.ofNat (21 * 2 ^ 1072)) ∧
    Double.toFixed2 (Double.dyadic 21 1073) = "10.50" ∧
    Double.toFixed2 (Double.dyadic 21 1072) = "5.25" ∧
    (Fine.add { amount := Double.dyadic 21 1073 } { amount := Double.dyadic 21 1072 }).display
      = "Total Fine Amount: Rs 15.75\n" := by
  obtain ⟨hcomm, hsum, _, _⟩ :=
    C14_fine_add_commutative_non_nan true { amount := Double.dyadic 21 1073 }
      { amount := Double.dyadic 21 1072 } (by decide) (by decide) (by decide) (by decide)
  obtain ⟨r, _, _, _, hexact⟩ :=
    hsum (Int.ofNat (21 * 2 ^ 1073)) (Int.ofNat (21 * 2 ^ 1072)) rfl rfl
  refine ⟨hcomm, hexact ⟨63, 1072, by norm_num, by decide⟩ (by decide),
    by decide, by decide, by decide⟩

set_option maxRecDepth 100000 in
set_option exponentiation.threshold 4000 in
/-- C15 (as stated, refuted): for the amounts 9007199254740992 (`2^53`), 1 and
1, all three of them values a `double` holds, `(Fine(a) + Fine(b)) + Fine(c)` is
`2^53` (the sum `2^53 + 1` is rounded back to `2^53`, twice) while
`Fine(a) + (Fine(b) + Fine(c))` is `2^53 + 2`; the two are also displayed
differently. -/
theorem C15_fine_add_not_associative :
    Double.isDouble (Double.dyadic 1 1127) = true ∧
    Double.isDouble (Double.dyadic 1 1074) = true ∧
    Double.toFixed2 (Double.dyadic 1 1127) = "9007199254740992.00" ∧
    Double.toFixed2 (Double.dyadic 1 1074) = "1.00" ∧
    (Fine.add (Fine.add { amount := Double.dyadic 1 1127 } { amount := Double.dyadic 1 1074 })
        { amount := Double.dyadic 1 1074 }).amount
      ≠ (Fine.add { amount := Double.dyadic 1 1127 }
          (Fine.add { amount := Double.dyadic 1 1074 } { amount := Double.dyadic 1 1074 })).amount ∧
    (Fine.add (Fine.add { amount := Double.dyadic 1 1127 } { amount := Double.dyadic 1 1074 })
        { amount := Double.dyadic 1 1074 }).display
      = "Total Fine Amount: Rs 9007199254740992.00\n" ∧
    (Fine.add { amount := Double.dyadic 1 1127 }
        (Fine.add { amount := Double.dyadic 1 1074 } { amount := Double.dyadic 1 1074 })).display
      = "Total Fine Amount: Rs 9007199254740994.00\n" := by
  refine ⟨by decide, by decide, by decide, by decide, by decide, by decide, by decide⟩

/-- C15 (amended): for finite amounts `a`, `b`, `c` whose inner sums `a + b` and
`b + c` are computed without rounding, `(Fine(a) + Fine(b)) + Fine(c)` holds
the same amount as `Fine(a) + (Fine(b) + Fine(c))`. -/
theorem C15_fine_add_associative_when_exact (x y z : Int)
    (hxy : (Fine.add { amount := .finite x } { amount := .finite y }).amount = .finite (x + y))
    (hyz : (Fine.add { amount := .finite y } { amount := .finite z }).amount = .finite (y + z)) :
    (Fine.add (Fine.add { amount := .finite x } { amount := .finite y })
        { amount := .finite z }).amount
      = (Fine.add { amount := .finite x }
          (Fine.add { amount := .finite y } { amount := .finite z })).amount := by
  simp only [Fine.add] at hxy hyz ⊢
  rw [hxy, hyz]
  simp only [Double.add, Int.add_assoc]

set_option maxRecDepth 100000 in
set_option exponentiation.threshold 4000 in
/-- C15 (amended) at the amounts 10.50, 5.25 and 0.25: both groupings give 16.00. -/
theorem C15_fine_add_associative_when_exact_witness :
    (Fine.add (Fine.add { amount := .finite (Int.ofNat (21 * 2 ^ 1073)) }
          { amount := .finite (Int.ofNat (21 * 2 ^ 1072)) })
        { amount := .finite (Int.ofNat (2 ^ 1072)) }).amount
      = (Fine.add { amount := .finite (Int.ofNat (21 * 2 ^ 1073)) }
          (Fine.add { amount := .finite (Int.ofNat (21 * 2 ^ 1072)) }
            { amount := .finite (Int.ofNat (2 ^ 1072)) })).amount :=
  C15_fine_add_associative_when_exact (Int.ofNat (21 * 2 ^ 1073)) (Int.ofNat (21 * 2 ^ 1072))
    (Int.ofNat (2 ^ 1072)) (by decide) (by decide)

/-! ## C11, C16: the program end to end -/

set_option maxRecDepth 100000 in
/-- C11 (code defect): `main` seeds 101, 201, 301; after command 6 with id 101,
command 4 with id 101 displays the status `Issued` and `showAll` reports 3.
Command 3 with id 201 then answers `Book removed.` and leaves the counter at
2, but the catalog holds the record 101 and the destroyed record 301: `showAll`
(command 1) and `search(201)` (command 4) both call through the dangling
pointer, which is undefined behaviour, so neither the listing of 101 and 301
nor the not-found answer is produced. -/
theorem C11_end_to_end_after_remove_undefined :
    seed = some (seedProg, "") ∧
    ∃ r1 r2, menuStep seedProg 6 { Operands.blank with id := 101 } = some r1 ∧
      (menuStep r1.prog 4 { Operands.blank with id := 101 }).map (fun r => r.cout)
        = some (menuText ++ "Enter Book ID to search: "
            ++ "101   Pride_and_Prejudice      Jane Austen         Issued    \n") ∧
      r1.prog.lib.showAll r1.prog.mem
        = some ("\n=================== Library Books ===================\n"
            ++ "ID    Title                    Author              Status    \n"
            ++ "-----------------------------------------------------\n"
            ++ "101   Pride_and_Prejudice      Jane Austen         Issued    \n"
            ++ "201   Physics_Fundamentals     H.C. Verma          Available \n"
            ++ "301   World_History            K. Roberts          Available \n"
            ++ "-----------------------------------------------------\n"
            ++ "Total Books (Static Count): 3\n") ∧
      menuStep r1.prog 3 { Operands.blank with id := 201 } = some r2 ∧
      r2.cout = menuText ++ "Enter Book ID to remove: " ++ "Book removed.\n" ∧
      r2.prog.mem.totalBooks = 2 ∧
      r2.prog.lib.books = [.addr 0, .addr 2] ∧
      r2.prog.mem.deref (.addr 2) = none ∧
      r2.prog.lib.showAll r2.prog.mem = none ∧
      menuStep r2.prog 1 Operands.blank = none ∧
      r2.prog.lib.search r2.prog.mem 201 = none ∧
      menuStep r2.prog 4 { Operands.blank with id := 201 } = none :=
  ⟨by decide,
   { control := .Running,
     prog := { mem := { objs := [some { id := 101, title := "Pride_and_Prejudice",
                                        author := "Jane Austen", isIssued := true,
                                        category := .Novel },
                                 some (Book.construct .Science 201 "Physics_Fundamentals"
                                        "H.C. Verma"),
                                 some (Book.construct .History 301 "World_History"
                                        "K. Roberts")],
                        totalBooks := 3 },
               lib := seedLib, report := "" },
     cout := menuText ++ "Enter Book ID to issue: " ++ "Book issued successfully!\n",
     cerr := "" },
   { control := .Running,
     prog := { mem := { objs := [some { id := 101, title := "Pride_and_Prejudice",
                                        author := "Jane Austen", isIssued := true,
                                        category := .Novel },
                                 some (Book.construct .Science 201 "Physics_Fundamentals"
                                        "H.C. Verma"),
                                 none],
                        totalBooks := 2 },
               lib := { books := [.addr 0, .addr 2] }, report := "" },
     cout := menuText ++ "Enter Book ID to remove: " ++ "Book removed.\n",
     cerr := "" },
   by decide, by decide, by decide, by decide, by decide, by decide, by decide, by decide,
   by decide, by decide, by decide, by decide⟩

set_option maxRecDepth 100000 in
/-- C16 (code defect): after seeding, command 2 (Add Book) with the id 101,
which the catalog already holds, constructs the record (`++totalBooks`), is
refused by `addBook`, and the record is never destroyed: the counter `showAll`
prints is 4 while the catalog holds 3 records. -/
theorem C16_counter_drifts_on_duplicate_add :
    seed = some (seedProg, "") ∧
    seedProg.mem.totalBooks = 3 ∧ seedProg.lib.books.length = 3 ∧
    ∃ r, menuStep seedProg 2
        { Operands.blank with id := 101, title := "Emma", author := "Austen", type := 1 }
        = some r ∧
      r.control = .Running ∧
      r.cerr = "Error: Book ID already exists!\n" ∧
      r.prog.lib.books.length = 3 ∧
      r.prog.mem.totalBooks = 4 ∧
      r.prog.lib.showAll r.prog.mem
        = some ("\n=================== Library Books ===================\n"
            ++ "ID    Title                    Author              Status    \n"
            ++ "-----------------------------------------------------\n"
            ++ "101   Pride_and_Prejudice      Jane Austen         Available \n"
            ++ "201   Physics_Fundamentals     H.C. Verma          Available \n"
            ++ "301   World_History            K. Roberts          Available \n"
            ++ "-----------------------------------------------------\n"
            ++ "Total Books (Static Count): 4\n") :=
  ⟨by decide, by decide, by decide,
   { control := .Running,
     prog := { mem := { objs := seedMem.objs ++ [some (Book.construct .Novel 101 "Emma" "Austen")],
                        totalBooks := 4 },
               lib := seedLib, report := "" },
     cout := menuText ++ "Enter Book ID: Enter Title: Enter Author: "
       ++ "Type (1.Novel 2.Science 3.History): ",
     cerr := "Error: Book ID already exists!\n" },
   by decide, by decide, by decide, by decide, by decide, by decide⟩

/-! ## Lemmas on the menu commands -/

theorem objs_get_of_deref (m : Mem) (a : Nat) (b : Book) (h : m.deref (.addr a) = some b) :
    m.objs[a]? = some (some b) := by
  simp only [Mem.deref] at h
  cases hc : m.objs[a]? with
  | none => simp [hc] at h
  | some c =>
    cases c with
    | none => simp [hc] at h
    | some b' =>
      simp only [hc, Option.join, Option.some_bind, id_eq, Option.some.injEq] at h
      rw [h]

/-- Writing back the record a pointer designates changes nothing. -/
theorem store_self (m : Mem) (p : BookPtr) (b : Book) (h : m.deref p = some b) :
    m.store p b = m := by
  cases p with
  | null => rfl
  | addr a =>
    have hget := objs_get_of_deref m a b h
    have : m.objs.set a (some b) = m.objs := by
      apply List.ext_getElem?
      intro i
      rw [List.getElem?_set]
      split
      · rename_i hai
        subst hai
        rw [if_pos (lt_length_of_deref m a b h), hget]
      · rfl
    simp only [Mem.store, this]

theorem deref_store_self (m : Mem) (p : BookPtr) (b b' : Book) (h : m.deref p = some b) :
    (m.store p b').deref p = some b' := by
  cases p with
  | null => simp [Mem.deref] at h
  | addr a =>
    simp [Mem.store, Mem.deref, List.getElem?_set_self (lt_length_of_deref m a b h)]

theorem deref_store_ne (m : Mem) (p q : BookPtr) (b' : Book) (h : q ≠ p) :
    (m.store p b').deref q = m.deref q := by
  cases p with
  | null => rfl
  | addr a =>
    cases q with
    | null => rfl
    | addr n =>
      have hne : a ≠ n := fun e => h (by rw [e])
      simp [Mem.store, Mem.deref, List.getElem?_set_ne hne]

/-- The scan of `search(int)` only depends on the ids the pointers show. -/
theorem searchLoop_congr (m m' : Mem) (id : Int) (l : List BookPtr)
    (h : ∀ q ∈ l, (m'.deref q).map Book.id = (m.deref q).map Book.id) :
    searchLoop m' id l = searchLoop m id l := by
  induction l with
  | nil => rfl
  | cons q l ih =>
    have hq := h q (List.mem_cons_self _ _)
    have ih' := ih (fun r hr => h r (List.mem_cons_of_mem _ hr))
    cases h1 : m'.deref q <;> cases h2 : m.deref q <;>
      simp [h1, h2] at hq <;> simp [searchLoop, h1, h2, Book.getId, hq, ih']

/-- On a catalog of live records that holds the id, `search` returns a pointer
of the catalog whose record has the id. -/
theorem search_present (m : Mem) (lib : Library) (id : Int) (hlive : lib.AllLive m)
    (hx : ∃ q ∈ lib.books, m.idIs id q = true) :
    ∃ p b, lib.search m id = some p ∧ p ≠ .null ∧ p ∈ lib.books ∧
      m.deref p = some b ∧ b.id = id := by
  obtain ⟨r, hr⟩ := searchLoop_defined m id lib.books hlive
  have hrn : r ≠ .null := by
    intro hnull
    subst hnull
    obtain ⟨q, hq, hid⟩ := hx
    obtain ⟨c, hc⟩ := (deref_isSome_iff m q).mp (hlive q hq)
    have := searchLoop_null_absent m id lib.books hr q hq (ne_null_of_deref m q c hc) c hc
    simp [Mem.idIs, hc] at hid
    exact this hid
  obtain ⟨hmem, b, hb, hid⟩ := searchLoop_some_mem m id lib.books r hr hrn
  exact ⟨r, b, hr, hrn, hmem, hb, hid⟩

/-- The store after `p->issueBook()` on a live record, whether the call returns
or throws: the record with its flag set. -/
theorem issueBook_live (m : Mem) (p : BookPtr) (b : Book) (h : m.deref p = some b) :
    m.issueBook p =
      if b.isIssued then .throws (.runtime_error "Book already issued!") m
      else .returns () (m.store p { b with isIssued := true }) := by
  cases hi : b.isIssued <;> simp [Mem.issueBook, h, Book.issueBook, hi]

/-- The store after `p->returnBook()` on a live record. -/
theorem returnBook_live (m : Mem) (p : BookPtr) (b : Book) (h : m.deref p = some b) :
    m.returnBook p =
      if !b.isIssued then .throws (.runtime_error "Book was not issued!") m
      else .returns () (m.store p { b with isIssued := false }) := by
  cases hi : b.isIssued <;> simp [Mem.returnBook, h, Book.returnBook, hi]

/-- Menu command 6 on an id `search` finds. -/
theorem menuStep_issue (s : Prog) (inp : Operands) (p : BookPtr) (b : Book)
    (hs : s.lib.search s.mem inp.id = some p) (hb : s.mem.deref p = some b) :
    menuStep s 6 inp = some
      (if b.isIssued then
        { control := .Running, prog := s,
          cout := menuText ++ "Enter Book ID to issue: ",
          cerr := "Error: Book already issued!\n" }
      else
        { control := .Running,
          prog := { s with mem := s.mem.store p { b with isIssued := true } },
          cout := menuText ++ ("Enter Book ID to issue: " ++ "Book issued successfully!\n"),
          cerr := "" }) := by
  cases p with
  | null => simp [Mem.deref] at hb
  | addr a =>
    cases hi : b.isIssued <;>
      simp [menuStep, menuBody, hs, issueBook_live s.mem _ b hb, hi, Exn.what]

/-- Menu command 7 on an id `search` finds. -/
theorem menuStep_return (s : Prog) (inp : Operands) (p : BookPtr) (b : Book)
    (hs : s.lib.search s.mem inp.id = some p) (hb : s.mem.deref p = some b) :
    menuStep s 7 inp = some
      (if !b.isIssued then
        { control := .Running, prog := s,
          cout := menuText ++ "Enter Book ID to return: ",
          cerr := "Error: Book was not issued!\n" }
      else
        { control := .Running,
          prog := { s with mem := s.mem.store p { b with isIssued := false } },
          cout := menuText ++ ("Enter Book ID to return: " ++ "Book returned successfully!\n"),
          cerr := "" }) := by
  cases p with
  | null => simp [Mem.deref] at hb
  | addr a =>
    cases hi : b.isIssued <;>
      simp [menuStep, menuBody, hs, returnBook_live s.mem _ b hb, hi, Exn.what]

/-! ## C17: what issuing and returning change -/

theorem distinctId_symm (m : Mem) (p q : BookPtr) (h : m.distinctId p q = true) :
    m.distinctId q p = true := by
  rw [distinctId_iff] at h ⊢
  intro a b ha hb
  exact fun e => h b a hb ha e.symm

/-- C17: on a catalog of live records with pairwise distinct ids that holds the
id `x`, `search(x)` returns the one pointer `p` whose record has the id, and menu
commands 6 and 7 on `x` leave the catalog (length and order), the report file
and the counter as they were and every record other than `p` unchanged; the
record of `p` keeps its id, title, author and class and has its flag set (6) or
cleared (7), and `search(x)` afterwards returns `p` again, showing that flag. -/
theorem C17_issue_return_frame (s : Prog) (inp : Operands)
    (hlive : s.lib.AllLive s.mem) (hd : s.lib.DistinctIds s.mem)
    (hx : ∃ q ∈ s.lib.books, s.mem.idIs inp.id q = true) :
    ∃ p b, s.lib.search s.mem inp.id = some p ∧ p ∈ s.lib.books ∧
      s.mem.deref p = some b ∧ b.id = inp.id ∧
      (∀ q ∈ s.lib.books, s.mem.idIs inp.id q = true → q = p) ∧
      ∀ choice : Int, choice = 6 ∨ choice = 7 →
        ∃ r, menuStep s choice inp = some r ∧
          r.control = .Running ∧
          r.prog.lib = s.lib ∧ r.prog.report = s.report ∧
          r.prog.mem.totalBooks = s.mem.totalBooks ∧
          r.prog.mem.objs.length = s.mem.objs.length ∧
          (∀ q, q ≠ p → r.prog.mem.deref q = s.mem.deref q) ∧
          r.prog.mem.deref p = some { b with isIssued := decide (choice = 6) } ∧
          r.prog.lib.search r.prog.mem inp.id = some p := by
  obtain ⟨p, b, hs, hpn, hmem, hb, hid⟩ := search_present s.mem s.lib inp.id hlive hx
  refine ⟨p, b, hs, hmem, hb, hid, ?_, ?_⟩
  · intro q hq hqid
    by_contra hne
    have hdist := List.Pairwise.forall (fun x y h => distinctId_symm s.mem x y h) hd hq hmem hne
    obtain ⟨c, hc⟩ := (deref_isSome_iff s.mem q).mp (hlive q hq)
    simp only [Mem.idIs, hc, decide_eq_true_eq] at hqid
    exact (distinctId_iff s.mem q p).mp hdist c b hc hb (by rw [hqid, hid])
  · -- the state after the command, in both cases a store of the record with the new flag
    have key : ∀ flag : Bool,
        (∀ q, q ≠ p → (s.mem.store p { b with isIssued := flag }).deref q = s.mem.deref q) ∧
        (s.mem.store p { b with isIssued := flag }).deref p = some { b with isIssued := flag } ∧
        (s.mem.store p { b with isIssued := flag }).totalBooks = s.mem.totalBooks ∧
        (s.mem.store p { b with isIssued := flag }).objs.length = s.mem.objs.length ∧
        s.lib.search (s.mem.store p { b with isIssued := flag }) inp.id = some p := by
      intro flag
      refine ⟨fun q hq => deref_store_ne s.mem p q _ hq, deref_store_self s.mem p b _ hb,
        ?_, ?_, ?_⟩
      · cases p <;> rfl
      · cases p <;> simp [Mem.store]
      · rw [← hs]
        refine searchLoop_congr s.mem _ inp.id s.lib.books ?_
        intro q _
        by_cases hq : q = p
        · subst hq
          rw [deref_store_self s.mem q b _ hb, hb]
          rfl
        · rw [deref_store_ne s.mem p q _ hq]
    have hsame : ∀ flag : Bool, b.isIssued = flag →
        s.mem.store p { b with isIssued := flag } = s.mem := by
      intro flag hf
      have : ({ b with isIssued := flag } : Book) = b := by cases b; simp_all
      rw [this, store_self s.mem p b hb]
    rintro choice (rfl | rfl)
    · obtain ⟨h1, h2, h3, h4, h5⟩ := key true
      rw [menuStep_issue s inp p b hs hb]
      cases hi : b.isIssued with
      | true =>
        have hst := hsame true hi
        rw [hst] at h1 h2 h3 h4 h5
        exact ⟨_, rfl, by simp, by simp, by simp, by simp, by simp,
          by simp, by simpa using h2, by simpa using h5⟩
      | false =>
        exact ⟨_, rfl, by simp, by simp, by simp, by simpa using h3, by simpa using h4,
          by simpa using h1, by simpa using h2, by simpa using h5⟩
    · obtain ⟨h1, h2, h3, h4, h5⟩ := key false
      rw [menuStep_return s inp p b hs hb]
      cases hi : b.isIssued with
      | false =>
        have hst := hsame false hi
        rw [hst] at h1 h2 h3 h4 h5
        exact ⟨_, rfl, by simp, by simp, by simp, by simp, by simp,
          by simp, by simpa using h2, by simpa using h5⟩
      | true =>
        exact ⟨_, rfl, by simp, by simp, by simp, by simpa using h3, by simpa using h4,
          by simpa using h1, by simpa using h2, by simpa using h5⟩

set_option maxRecDepth 100000 in
/-- C17 on the seeded catalog with the id 201: command 6 sets the flag of the
record at address 1 and of no other. -/
theorem C17_issue_return_frame_witness :
    ∃ p b, seedProg.lib.search seedProg.mem 201 = some p ∧ p ∈ seedProg.lib.books ∧
      seedProg.mem.deref p = some b ∧ b.id = 201 ∧
      (∀ q ∈ seedProg.lib.books, seedProg.mem.idIs 201 q = true → q = p) ∧
      ∀ choice : Int, choice = 6 ∨ choice = 7 →
        ∃ r, menuStep seedProg choice { Operands.blank with id := 201 } = some r ∧
          r.control = .Running ∧
          r.prog.lib = seedProg.lib ∧ r.prog.report = seedProg.report ∧
          r.prog.mem.totalBooks = seedProg.mem.totalBooks ∧
          r.prog.mem.objs.length = seedProg.mem.objs.length ∧
          (∀ q, q ≠ p → r.prog.mem.deref q = seedProg.mem.deref q) ∧
          r.prog.mem.deref p = some { b with isIssued := decide (choice = 6) } ∧
          r.prog.lib.search r.prog.mem 201 = some p :=
  C17_issue_return_frame seedProg { Operands.blank with id := 201 }
    (by decide) (by decide) (by decide)

/-! ## C12: the menu controller -/

theorem displayAll_defined (m : Mem) (l : List BookPtr)
    (h : ∀ p ∈ l, (m.deref p).isSome = true) : ∃ t, displayAll m l = some t := by
  induction l with
  | nil => exact ⟨"", rfl⟩
  | cons q l ih =>
    obtain ⟨c, hc⟩ := (deref_isSome_iff m q).mp (h q (List.mem_cons_self _ _))
    obtain ⟨t, ht⟩ := ih (fun p hp => h p (List.mem_cons_of_mem _ hp))
    exact ⟨c.display ++ t, by simp [displayAll, hc, ht]⟩

theorem new_eq (m : Mem) (c : Category) (i : Int) (t a : String)
    (h : m.totalBooks < INT_MAX) :
    m.new c i t a = some (.addr m.objs.length,
      { objs := m.objs ++ [some (Book.construct c i t a)], totalBooks := m.totalBooks + 1 }) := by
  unfold Mem.new
  rw [if_pos (Int.add_one_le_iff.mpr h)]

/-- The statement `lib.addBook(new C(id, title, author))` on a valid state is
defined: the record is constructed, and the call either appends it or, when a
held record has the id, throws and leaves the catalog as it was. -/
theorem addNew_valid (s : Prog) (c : Category) (i : Int) (t a : String) (hv : s.Valid) :
    ∃ m', s.mem.new c i t a = some (.addr s.mem.objs.length, m') ∧
      ((∃ q ∈ s.lib.books, s.mem.idIs i q = true) →
        addNew s c i t a
          = some ({ s with mem := m' }, some (.runtime_error "Book ID already exists!"))) ∧
      ((¬ ∃ q ∈ s.lib.books, s.mem.idIs i q = true) →
        addNew s c i t a
          = some ({ s with mem := m',
                           lib := { books := s.lib.books ++ [.addr s.mem.objs.length] } },
                  none)) := by
  obtain ⟨hlive, _, hmax⟩ := hv
  have hnew := new_eq s.mem c i t a hmax
  refine ⟨_, hnew, ?_, ?_⟩
  all_goals
    obtain ⟨_, hsame⟩ := deref_new s.mem _ c i t a _ hnew
    have hkeep : ∀ q ∈ s.lib.books,
        Mem.deref
          { objs := s.mem.objs ++ [some (Book.construct c i t a)],
            totalBooks := s.mem.totalBooks + 1 } q = s.mem.deref q := by
      intro q hq
      obtain ⟨b, hb⟩ := (deref_isSome_iff s.mem q).mp (hlive q hq)
      cases q with
      | null => simp [Mem.deref] at hb
      | addr n => exact hsame n (lt_length_of_deref s.mem n b hb)
    have hself :
        Mem.deref
          { objs := s.mem.objs ++ [some (Book.construct c i t a)],
            totalBooks := s.mem.totalBooks + 1 } (.addr s.mem.objs.length)
        = some (Book.construct c i t a) := by
      simp [Mem.deref]
  · rintro ⟨q, hq, hqid⟩
    obtain ⟨b, hb⟩ := (deref_isSome_iff s.mem q).mp (hlive q hq)
    simp only [Mem.idIs, hb, decide_eq_true_eq] at hqid
    have hdup := addBook_duplicate _ s.lib _ _ hself
      (fun r hr => by rw [hkeep r hr]; exact hlive r hr)
      ⟨q, hq, b, by rw [hkeep q hq]; exact hb, by simpa [Book.construct] using hqid⟩
    simp only [addNew, hnew, hdup]
  · intro hnone
    have hfresh := addBook_fresh _ s.lib _ _ hself (by
      intro q hq
      obtain ⟨b, hb⟩ := (deref_isSome_iff s.mem q).mp (hlive q hq)
      refine ⟨b, by rw [hkeep q hq]; exact hb, ?_⟩
      intro hid
      exact hnone ⟨q, hq, by simpa [Mem.idIs, hb, Book.construct] using hid⟩)
    simp only [addNew, hnew, hfresh]

/-- On a valid state `removeBook` is defined and returns. -/
theorem removeBook_valid (s : Prog) (id : Int) (hv : s.Valid) :
    ∃ r st, s.lib.removeBook s.mem id = .returns r st := by
  obtain ⟨hlive, hmin, _⟩ := hv
  rw [removeBook_eq s.mem s.lib id hlive]
  split
  · rename_i hk
    have hle : (s.lib.books.filter (fun p => !s.mem.idIs id p)).length ≤ s.lib.books.length :=
      List.length_filter_le _ _
    have hlt : (s.lib.books.filter (fun p => !s.mem.idIs id p)).length < s.lib.books.length :=
      Nat.lt_of_le_of_ne hle hk
    have hget : s.lib.books[(s.lib.books.filter (fun p => !s.mem.idIs id p)).length]?
        = some (s.lib.books[(s.lib.books.filter (fun p => !s.mem.idIs id p)).length]) :=
      List.getElem?_eq_getElem hlt
    obtain ⟨b, hb⟩ := (deref_isSome_iff s.mem _).mp (hlive _ (List.getElem_mem hlt))
    rw [hget]
    cases hp : s.lib.books[(s.lib.books.filter (fun p => !s.mem.idIs id p)).length] with
    | null => rw [hp] at hb; simp [Mem.deref] at hb
    | addr n =>
      rw [hp] at hb
      have hge : INT_MIN ≤ s.mem.totalBooks - 1 := Int.le_sub_one_of_lt hmin
      simp only [Mem.delete, hb, hge, if_true]
      exact ⟨_, _, rfl⟩
  · exact ⟨_, _, rfl⟩

/-- The controller state after a pass only depends on the choice read. -/
theorem menuStep_control (s : Prog) (choice : Int) (inp : Operands) (r : StepResult)
    (h : menuStep s choice inp = some r) :
    r.control = if choice ≠ 0 then .Running else .Terminated := by
  unfold menuStep at h
  split at h
  · cases h
  · simp only [Option.some.injEq] at h
    rw [← h]

/-- What is written to `cerr` in a pass is nothing or one caught exception. -/
theorem menuStep_cerr (s : Prog) (choice : Int) (inp : Operands) (r : StepResult)
    (h : menuStep s choice inp = some r) :
    r.cerr = "" ∨ ∃ e : Exn, r.cerr = "Error: " ++ e.what ++ "\n" := by
  unfold menuStep at h
  split at h
  · cases h
  · rename_i s' out exn _
    simp only [Option.some.injEq] at h
    rw [← h]
    cases exn with
    | none => exact Or.inl rfl
    | some e => exact Or.inr ⟨e, rfl⟩

/-- A choice outside 0..9 writes `Invalid choice!` and changes nothing. -/
theorem menuStep_invalid (s : Prog) (choice : Int) (inp : Operands)
    (h : choice < 0 ∨ 9 < choice) :
    menuStep s choice inp = some
      { control := .Running, prog := s, cout := menuText ++ "Invalid choice!\n", cerr := "" } := by
  have h0 : choice ≠ 0 := by omega
  have h1 : choice ≠ 1 := by omega
  have h2 : choice ≠ 2 := by omega
  have h3 : choice ≠ 3 := by omega
  have h4 : choice ≠ 4 := by omega
  have h5 : choice ≠ 5 := by omega
  have h6 : choice ≠ 6 := by omega
  have h7 : choice ≠ 7 := by omega
  have h8 : choice ≠ 8 := by omega
  have h9 : choice ≠ 9 := by omega
  simp [menuStep, menuBody, h0, h1, h2, h3, h4, h5, h6, h7, h8, h9]

/-- Menu command 2 with a valid type and an id the catalog holds: the error is
written to `cerr` and the catalog is as before. -/
theorem menuStep_add_duplicate (s : Prog) (inp : Operands) (hv : s.Valid)
    (ht : inp.type = 1 ∨ inp.type = 2 ∨ inp.type = 3)
    (hdup : ∃ q ∈ s.lib.books, s.mem.idIs inp.id q = true) :
    ∃ m', menuStep s 2 inp = some
      { control := .Running, prog := { s with mem := m' },
        cout := menuText ++ ("Enter Book ID: Enter Title: Enter Author: "
          ++ "Type (1.Novel 2.Science 3.History): "),
        cerr := "Error: Book ID already exists!\n" } := by
  rcases ht with ht | ht | ht
  · obtain ⟨m', _, hadd, _⟩ := addNew_valid s .Novel inp.id inp.title inp.author hv
    exact ⟨m', by simp [menuStep, menuBody, ht, hadd hdup, Exn.what]⟩
  · obtain ⟨m', _, hadd, _⟩ := addNew_valid s .Science inp.id inp.title inp.author hv
    exact ⟨m', by simp [menuStep, menuBody, ht, hadd hdup, Exn.what]⟩
  · obtain ⟨m', _, hadd, _⟩ := addNew_valid s .History inp.id inp.title inp.author hv
    exact ⟨m', by simp [menuStep, menuBody, ht, hadd hdup, Exn.what]⟩

/-- Menu command 8 on an id `search` finds, when the file cannot be opened. -/
theorem menuStep_report_unopenable (s : Prog) (inp : Operands) (p : BookPtr) (b : Book)
    (hs : s.lib.search s.mem inp.id = some p) (hb : s.mem.deref p = some b)
    (hf : inp.fileOpens = false) :
    menuStep s 8 inp = some
      { control := .Running, prog := s,
        cout := menuText ++ "Enter Book ID to save report: ",
        cerr := "Error: Cannot open file: issued_books.txt\n" } := by
  cases p with
  | null => simp [Mem.deref] at hb
  | addr a => simp [menuStep, menuBody, hs, hb, generateReport, hf, Exn.what]

/-- On a valid state the `try` block of every choice is defined. -/
theorem menuBody_defined (s : Prog) (choice : Int) (inp : Operands) (hv : s.Valid) :
    (menuBody s choice inp).isSome = true := by
  have hlive := hv.1
  -- the pointer `search(int)` returns, and its record when it is not null
  have hsearch : ∃ r, s.lib.search s.mem inp.id = some r ∧
      (r = .null ∨ ∃ a b, r = .addr a ∧ s.mem.deref (.addr a) = some b) := by
    obtain ⟨r, hr⟩ := searchLoop_defined s.mem inp.id s.lib.books hlive
    refine ⟨r, hr, ?_⟩
    cases r with
    | null => exact Or.inl rfl
    | addr a =>
      obtain ⟨_, b, hb, _⟩ := searchLoop_some_mem s.mem inp.id s.lib.books _ hr (by simp)
      exact Or.inr ⟨a, b, rfl, hb⟩
  have htitle : ∃ r, s.lib.search_title s.mem inp.title = some r ∧
      (r = .null ∨ ∃ a b, r = .addr a ∧ s.mem.deref (.addr a) = some b) := by
    obtain ⟨r, hr, _, hfirst⟩ := searchTitleLoop_spec s.mem inp.title s.lib.books hlive
    refine ⟨r, hr, ?_⟩
    cases r with
    | null => exact Or.inl rfl
    | addr a =>
      obtain ⟨_, _, b, _, hb, _⟩ := hfirst (by simp)
      exact Or.inr ⟨a, b, rfl, hb⟩
  have hadd : ∀ c : Category,
      ∃ x, addNew s c inp.id inp.title inp.author = some x := by
    intro c
    obtain ⟨m', _, hdup, hfresh⟩ := addNew_valid s c inp.id inp.title inp.author hv
    by_cases hx : ∃ q ∈ s.lib.books, s.mem.idIs inp.id q = true
    · exact ⟨_, hdup hx⟩
    · exact ⟨_, hfresh hx⟩
  by_cases h1 : choice = 1
  · subst h1
    obtain ⟨t, ht⟩ := displayAll_defined s.mem s.lib.books hlive
    simp [menuBody, Library.showAll, ht]
  by_cases h2 : choice = 2
  · subst h2
    obtain ⟨x1, hx1⟩ := hadd .Novel
    obtain ⟨x2, hx2⟩ := hadd .Science
    obtain ⟨x3, hx3⟩ := hadd .History
    by_cases t1 : inp.type = 1
    · simp [menuBody, t1, hx1]
    by_cases t2 : inp.type = 2
    · simp [menuBody, t2, hx2]
    by_cases t3 : inp.type = 3
    · simp [menuBody, t3, hx3]
    simp [menuBody, t1, t2, t3]
  by_cases h3 : choice = 3
  · subst h3
    obtain ⟨r, st, hr⟩ := removeBook_valid s inp.id hv
    cases r <;> simp [menuBody, hr]
  by_cases h4 : choice = 4
  · subst h4
    obtain ⟨r, hr, hnull | ⟨a, b, rfl, hb⟩⟩ := hsearch
    · subst hnull; simp [menuBody, hr]
    · simp [menuBody, hr, hb]
  by_cases h5 : choice = 5
  · subst h5
    obtain ⟨r, hr, hnull | ⟨a, b, rfl, hb⟩⟩ := htitle
    · subst hnull; simp [menuBody, hr]
    · simp [menuBody, hr, hb]
  by_cases h6 : choice = 6
  · subst h6
    obtain ⟨r, hr, hnull | ⟨a, b, rfl, hb⟩⟩ := hsearch
    · subst hnull; simp [menuBody, hr]
    · cases hi : b.isIssued <;> simp [menuBody, hr, issueBook_live s.mem _ b hb, hi]
  by_cases h7 : choice = 7
  · subst h7
    obtain ⟨r, hr, hnull | ⟨a, b, rfl, hb⟩⟩ := hsearch
    · subst hnull; simp [menuBody, hr]
    · cases hi : b.isIssued <;> simp [menuBody, hr, returnBook_live s.mem _ b hb, hi]
  by_cases h8 : choice = 8
  · subst h8
    obtain ⟨r, hr, hnull | ⟨a, b, rfl, hb⟩⟩ := hsearch
    · subst hnull; simp [menuBody, hr]
    · cases hf : inp.fileOpens <;> simp [menuBody, hr, hb, generateReport, hf]
  by_cases h9 : choice = 9
  · subst h9
    simp [menuBody]
  by_cases h0 : choice = 0
  · subst h0
    simp [menuBody]
  simp [menuBody, h1, h2, h3, h4, h5, h6, h7, h8, h9, h0]

/-- On a valid state (all held pointers live, counter inside the range of
`int`) one pass of the menu loop is defined for every integer choice and every
operands, and the controller is `Terminated` afterwards exactly when the choice
is 0.  Whatever is thrown is caught and written to `cerr` as `Error: ...`: a
duplicate add, the issue of an issued record, the return of an available
record and an unopenable report file each leave the controller `Running` with
their message; a choice outside 0..9 writes `Invalid choice!` and changes
nothing.  Validity is not kept by the pass: command 3 can leave a state that
is not valid, and the statement says nothing of the passes that follow. -/
theorem menuStep_on_valid_state (s : Prog) (choice : Int) (inp : Operands)
    (hv : s.Valid) :
    ∃ r, menuStep s choice inp = some r ∧
      (r.control = .Terminated ↔ choice = 0) ∧
      (choice ≠ 0 → r.control = .Running) ∧
      (r.cerr = "" ∨ ∃ e : Exn, r.cerr = "Error: " ++ e.what ++ "\n") ∧
      (choice < 0 ∨ 9 < choice →
        r.prog = s ∧ r.cout = menuText ++ "Invalid choice!\n" ∧ r.cerr = "") ∧
      (choice = 2 → (inp.type = 1 ∨ inp.type = 2 ∨ inp.type = 3) →
        (∃ q ∈ s.lib.books, s.mem.idIs inp.id q = true) →
        r.cerr = "Error: Book ID already exists!\n" ∧ r.prog.lib = s.lib) ∧
      (choice = 6 → ∀ p b, s.lib.search s.mem inp.id = some p → s.mem.deref p = some b →
        b.isIssued = true →
        r.cerr = "Error: Book already issued!\n" ∧ r.prog = s) ∧
      (choice = 7 → ∀ p b, s.lib.search s.mem inp.id = some p → s.mem.deref p = some b →
        b.isIssued = false →
        r.cerr = "Error: Book was not issued!\n" ∧ r.prog = s) ∧
      (choice = 8 → ∀ p b, s.lib.search s.mem inp.id = some p → s.mem.deref p = some b →
        inp.fileOpens = false →
        r.cerr = "Error: Cannot open file: issued_books.txt\n" ∧ r.prog = s) := by
  have hdef := menuBody_defined s choice inp hv
  obtain ⟨x, hx⟩ := Option.isSome_iff_exists.mp hdef
  obtain ⟨r, hr⟩ : ∃ r, menuStep s choice inp = some r := by
    obtain ⟨s', out, exn⟩ := x
    simp only [menuStep, hx]
    exact ⟨_, rfl⟩
  have hctl := menuStep_control s choice inp r hr
  refine ⟨r, hr, ?_, ?_, menuStep_cerr s choice inp r hr, ?_, ?_, ?_, ?_, ?_⟩
  · by_cases h0 : choice = 0 <;> simp [hctl, h0]
  · intro h0
    simp [hctl, h0]
  · intro hout
    rw [menuStep_invalid s choice inp hout] at hr
    cases hr
    exact ⟨rfl, rfl, rfl⟩
  · intro h2 ht hdup
    subst h2
    obtain ⟨m', hm'⟩ := menuStep_add_duplicate s inp hv ht hdup
    rw [hm'] at hr
    cases hr
    exact ⟨rfl, rfl⟩
  · intro h6 p b hs hb hi
    subst h6
    rw [menuStep_issue s inp p b hs hb, if_pos hi] at hr
    cases hr
    exact ⟨rfl, rfl⟩
  · intro h7 p b hs hb hi
    subst h7
    rw [menuStep_return s inp p b hs hb, if_pos (by simp [hi])] at hr
    cases hr
    exact ⟨rfl, rfl⟩
  · intro h8 p b hs hb hf
    subst h8
    rw [menuStep_report_unopenable s inp p b hs hb hf] at hr
    cases hr
    exact ⟨rfl, rfl⟩

set_option maxRecDepth 100000 in
/-- C12 (code defect): the seeded state is valid and command 3 with id 201
leaves the controller `Running`, but in a state that holds the destroyed
record 301.  From that state the pass for command 1 (`showAll`), for command 2
(a new record 401), for command 3 (id 101) and for command 5 (a title search)
each reads through the dangling pointer: undefined behaviour instead of a
reported outcome with the controller staying `Running`. -/
theorem C12_menu_undefined_after_remove :
    seedProg.Valid ∧
    ∃ r, menuStep seedProg 3 { Operands.blank with id := 201 } = some r ∧
      r.control = .Running ∧
      r.cout = menuText ++ "Enter Book ID to remove: " ++ "Book removed.\n" ∧
      ¬ r.prog.Valid ∧
      menuStep r.prog 1 Operands.blank = none ∧
      menuStep r.prog 2
        { Operands.blank with id := 401, title := "Emma", author := "Austen", type := 1 }
        = none ∧
      menuStep r.prog 3 { Operands.blank with id := 101 } = none ∧
      menuStep r.prog 5 { Operands.blank with title := "World_History" } = none :=
  ⟨by decide,
   { control := .Running,
     prog := { mem := { objs := [some (Book.construct .Novel 101 "Pride_and_Prejudice"
                                        "Jane Austen"),
                                 some (Book.construct .Science 201 "Physics_Fundamentals"
                                        "H.C. Verma"),
                                 none],
                        totalBooks := 2 },
               lib := { books := [.addr 0, .addr 2] }, report := "" },
     cout := menuText ++ "Enter Book ID to remove: " ++ "Book removed.\n",
     cerr := "" },
   by decide, by decide, by decide, by decide, by decide, by decide, by decide, by decide⟩

end LibrarySystem
